import Mathlib

/-!
# Verification of the credential-generation and expression-evaluation core

Shallow embedding of `src/generator_tools.py` and `src/unit_converter.py`
(together with the dispatch glue in `src/server.py`), with theorems settling
the specification claims about secure credential generation, batch running,
hashing, and the sandboxed arithmetic expression evaluator.

Randomness model: the Python code draws from the `secrets` module (a CSPRNG).
Each draw is modelled by reading an arbitrary infinite tape `t : Nat → Nat`
at an increasing position; every theorem quantifies over all tapes, so the
results hold for every possible sequence of random draws.
-/

namespace AIE8

/-! ## Random source model (`secrets.choice`, `secrets.randbelow`, byte draws) -/

/-- A randomness tape: the value the CSPRNG produced for its `pos`-th draw.
Quantifying over all tapes quantifies over all random outcomes. -/
abbrev Tape := Nat → Nat

/-- `secrets.choice(pool)`: a uniformly chosen element of `pool`.
Modelled as indexing the pool by the tape value reduced mod the pool size;
for a nonempty pool this is always a genuine element of the pool. -/
def secretsChoice (t : Tape) (pos : Nat) (pool : List Char) : Char :=
  pool.getD (t pos % pool.length) 'A'

/-- `secrets.randbelow(n)`: a uniformly chosen natural number in `[0, n)`.
Modelled as the tape value reduced mod `n`. -/
def secretsRandbelow (t : Tape) (pos : Nat) (n : Nat) : Nat :=
  t pos % n

/-! ## Character classes (`string.ascii_uppercase`, …, the symbol set) -/

/-- `string.ascii_uppercase`. -/
def ascii_uppercase : List Char := "ABCDEFGHIJKLMNOPQRSTUVWXYZ".toList

/-- `string.ascii_lowercase`. -/
def ascii_lowercase : List Char := "abcdefghijklmnopqrstuvwxyz".toList

/-- `string.digits`. -/
def asciiDigits : List Char := "0123456789".toList

/-- The symbol set literal of `generate_password`
(`"!@#$%^&*()_+-=[]\x7b\x7d|;:,.<>?"`). -/
def passwordSymbols : List Char := "!@#$%^&*()_+-=[]\x7b\x7d|;:,.<>?".toList

/-- `string.ascii_letters` (lowercase then uppercase, as in CPython). -/
def ascii_letters : List Char := ascii_lowercase ++ ascii_uppercase

/-! ## `GeneratorTools.generate_password` -/

/-- The union pool built from the selected classes, in source order
(uppercase, lowercase, digits, symbols). -/
def passwordPool (u lo d sy : Bool) : List Char :=
  (if u then ascii_uppercase else []) ++
  (if lo then ascii_lowercase else []) ++
  (if d then asciiDigits else []) ++
  (if sy then passwordSymbols else [])

/-- One conditional seeding step of `generate_password`: when the class is
selected, append one `secrets.choice` draw from that class and advance the
tape position. -/
def seedStep (t : Tape) (flag : Bool) (pool : List Char)
    (acc : List Char × Nat) : List Char × Nat :=
  if flag then (acc.1 ++ [secretsChoice t acc.2 pool], acc.2 + 1) else acc

/-- The seeding step: one `secrets.choice` draw from each selected class, in
source order (uppercase, lowercase, digits, symbols). Returns the seeded
characters and the next tape position. -/
def passwordSeeds (t : Tape) (pos : Nat) (u lo d sy : Bool) :
    List Char × Nat :=
  seedStep t sy passwordSymbols
    (seedStep t d asciiDigits
      (seedStep t lo ascii_lowercase
        (seedStep t u ascii_uppercase ([], pos))))

/-- The filling step: `n` further `secrets.choice` draws from the union pool,
in draw order. -/
def passwordFill (t : Tape) (pool : List Char) : Nat → Nat → List Char
  | _,   0     => []
  | pos, n + 1 => secretsChoice t pos pool :: passwordFill t pool (pos + 1) n

/-- The Python tuple swap `l[i], l[j] = l[j], l[i]` on a list. -/
def swapList (l : List Char) (i j : Nat) : List Char :=
  (l.set i (l.getD j 'A')).set j (l.getD i 'A')

/-- The Fisher–Yates loop body: at argument `i + 1` it swaps position `i + 1`
with `secrets.randbelow(i + 2)` and continues at `i`; at `0` it stops, exactly
as `for i in range(len(shuffled) - 1, 0, -1)` does. -/
def fyGo (t : Tape) : Nat → List Char → Nat → List Char
  | _,   l, 0     => l
  | pos, l, i + 1 =>
      fyGo t (pos + 1) (swapList l (i + 1) (secretsRandbelow t pos (i + 2))) i

/-- The shuffle step of `generate_password`: a Fisher–Yates pass over the whole
buffer, iterating from the last index down to 1. -/
def fyShuffle (t : Tape) (pos : Nat) (l : List Char) : List Char :=
  fyGo t pos l (l.length - 1)

/-- `GeneratorTools.generate_password(length, include_uppercase,
include_lowercase, include_digits, include_symbols)`.  Faithful to the source:
validate the length, build the union pool, reject an empty pool, seed one
character per selected class, fill the remaining positions from the pool, and
Fisher–Yates-shuffle the whole buffer.  A raised `ValueError` is an `.error`
carrying the exception message. -/
def generate_password (t : Tape) (length : ℤ) (u lo d sy : Bool) :
    Except String String :=
  if length < 8 then
    .error "Password length must be at least 8 characters"
  else
    let characters := passwordPool u lo d sy
    if characters.isEmpty then
      .error "At least one character type must be selected"
    else
      let seeded := passwordSeeds t 0 u lo d sy
      let remaining : Nat := (length - seeded.1.length).toNat
      let filled := seeded.1 ++ passwordFill t characters seeded.2 remaining
      .ok (String.mk (fyShuffle t (seeded.2 + remaining) filled))

/-! ## `GeneratorTools.generate_token`, `generate_pin`, `generate_api_key` -/

/-- One lowercase hex digit, as `"%02x"` formatting produces for each nibble. -/
def hexDigit (n : Nat) : Char :=
  "0123456789abcdef".toList.getD (n % 16) '0'

/-- One byte rendered as two lowercase hex digits. -/
def byteToHex (b : Nat) : List Char :=
  [hexDigit (b / 16), hexDigit (b % 16)]

/-- `secrets.token_hex(n)`: `n` random bytes, each rendered as two lowercase
hex digits. -/
def tokenHexChars (t : Tape) : Nat → Nat → List Char
  | _,   0     => []
  | pos, n + 1 => byteToHex (t pos % 256) ++ tokenHexChars t (pos + 1) n

/-- `GeneratorTools.generate_token(length)`: returns `secrets.token_hex(length)`
with no validation of its argument. -/
def generate_token (t : Tape) (length : Nat) : String :=
  String.mk (tokenHexChars t 0 length)

/-- `GeneratorTools.generate_pin(length)`: rejects lengths below 4, else
`length` uniform digit draws. -/
def generate_pin (t : Tape) (length : ℤ) : Except String String :=
  if length < 4 then
    .error "PIN length must be at least 4 digits"
  else
    .ok (String.mk (passwordFill t asciiDigits 0 length.toNat))

/-- `GeneratorTools.generate_api_key(length)`: rejects lengths below 16, else
`length` uniform alphanumeric draws. -/
def generate_api_key (t : Tape) (length : ℤ) : Except String String :=
  if length < 16 then
    .error "API key length must be at least 16 characters"
  else
    .ok (String.mk (passwordFill t (ascii_letters ++ asciiDigits) 0 length.toNat))

/-! ## `generate_multiple` (the batch runner) -/

/-- One line of the batch output: `f"{i+1}. {item}"` on success,
`f"{i+1}. Error: {str(e)}"` when the iteration raised. -/
def batchLine (i : Nat) (outcome : Except String String) : String :=
  match outcome with
  | .ok item => s!"{i + 1}. {item}"
  | .error e => s!"{i + 1}. Error: {e}"

/-- The loop of `generate_multiple`: `count` sequential invocations of the
chosen generator, each `try`-wrapped so a raised exception becomes an error
line for that slot only.  The generator is effectful (randomness, raises), so
its `i`-th invocation is modelled as `gen i`. -/
def batchResults (gen : Nat → Except String String) (count : Nat) :
    List String :=
  (List.range count).map fun i => batchLine i (gen i)

/-- The keys of the `generators` dict, in insertion order. -/
def generatorTypes : List String := ["uuid", "password", "api_key", "token", "pin"]

/-- `icon_map.get(generator_type, "🔧")`. -/
def generatorIcon (genType : String) : String :=
  if genType = "uuid" then "🔑"
  else if genType = "password" then "🔐"
  else if genType = "api_key" then "🎫"
  else if genType = "token" then "🎟️"
  else if genType = "pin" then "🔢"
  else "🔧"

/-- `generate_multiple(generator_type, count, **kwargs)`: dispatches on the
generator type, runs the batch loop, and assembles the header plus one line
per iteration. -/
def generate_multiple (genType : String)
    (gen : Nat → Except String String) (count : Nat) : String :=
  if !(generatorTypes.contains genType) then
    "❌ Invalid generator type. Choose from: uuid, password, api_key, token, pin"
  else
    generatorIcon genType ++ " Generated " ++ toString count ++ " " ++
      genType.toUpper ++ "(s):" ++ "\n" ++
      String.intercalate "\n" (batchResults gen count)

/-! ## `UnitConverter.calculate`: the forbidden-substring guard -/

/-- Whether `w` matches `s` starting at its head (the inner step of Python
substring containment). -/
def charsMatchAt : List Char → List Char → Bool
  | [], _ => true
  | _ :: _, [] => false
  | a :: w, b :: s => a == b && charsMatchAt w s

/-- Python `w in s` on strings, over the character lists. -/
def hasSubChars (w : List Char) : List Char → Bool
  | [] => w.isEmpty
  | b :: s => charsMatchAt w (b :: s) || hasSubChars w s

/-- The `forbidden` word list of `UnitConverter.calculate` (line 180). -/
def forbiddenWords : List String :=
  ["__", "import", "eval", "exec", "open", "file", "compile"]

/-- Line 181: `any(word in expression.lower() for word in forbidden)` — the
only guard that runs before the expression reaches `eval`; `.lower()` maps
each character to its lowercase form. -/
def forbiddenHit (expression : String) : Bool :=
  forbiddenWords.any fun w =>
    hasSubChars w.toList (expression.toList.map Char.toLower)

/-- Which branch of `UnitConverter.calculate` executes: either the
forbidden-substring guard rejects the expression (line 182), or the raw
input string is passed to `eval(expression, {"__builtins__": \x7b\x7d},
safe_dict)` (line 185). -/
inductive EvalPath : Type where
  | rejected : EvalPath
  | handsRawStringToEval : String → EvalPath
  deriving DecidableEq, Repr

/-- The control path of `UnitConverter.calculate` up to the call of `eval`:
the source performs no other validation — in particular no tokenization,
parsing, or identifier allow-list check — between the substring guard and
handing the raw string to the general-purpose interpreter. -/
def calculatePath (expression : String) : EvalPath :=
  if forbiddenHit expression then .rejected
  else .handsRawStringToEval expression

/-- A constant-zero randomness tape, used to instantiate theorems at concrete
inputs. -/
def zeroTape : Tape := fun _ => 0

/-- Whether an `Except`-valued call returned normally. -/
def isOkE : Except String String → Bool
  | .ok _ => true
  | .error _ => false

/-! ## Behavioural model of `eval` on the arithmetic fragment

`UnitConverter.calculate` hands the (guard-surviving) expression to
`eval(expression, {"__builtins__": \x7b\x7d}, safe_dict)`.  The definitions
below model the behaviour of that call on a fragment of Python's expression
language: numeric literals, string literals without escape sequences,
`+ - * / **`, unary sign, parentheses, commas, and names resolved in
`safe_dict`.  CPython's `eval` accepts a wider language (comparisons,
attribute access, containers, lambdas, keyword literals, adjacent
string-literal concatenation, …) that is not modelled here; every theorem
about an evaluation outcome is therefore confined by hypothesis to inputs
this fragment parses, and no theorem asserts which branch CPython takes on
an input outside the fragment — see the C1 theorem for the security
consequence of `eval`'s width.

Numbers are modelled as exact rationals: Python's `int`/`float` distinction
and IEEE-754 rounding are outside the embedding's scope.  Where a result is
a genuine float with no rational counterpart (`sin`, `cos`, `tan`, `exp`,
`log` values, non-integer powers, inexact square roots) the model returns a
documented rational stand-in; no theorem depends on those values, only on
error behaviour and on exactly-representable results. -/

/-- The exceptions `eval` can raise on this fragment, as caught by
`except Exception` in `calculate`. -/
inductive PyErr : Type where
  | domain (op : String)   -- ValueError("math domain error"), tagged with the operation
  | zeroDiv                -- ZeroDivisionError (int/float message variants collapsed)
  | nameErr (n : String)   -- NameError: name n is not defined
  | typeErr (detail : String) -- TypeError (detail text abridged)
  | valueErr (detail : String) -- ValueError other than a math domain error
  | synErr (detail : String)  -- SyntaxError (detail text abridged)
  deriving DecidableEq, Repr

/-- The values an expression of the fragment can produce: a number, a string
(from a string literal, concatenation, repetition, or `min`/`max` over
strings), or one of the `safe_dict` function objects referenced without
being called. -/
inductive PyVal : Type where
  | num (q : ℚ)
  | str (t : String)
  | func (n : String)
  deriving DecidableEq, Repr

mutual
/-- The parsed expression tree, mirroring CPython's AST for the fragment. -/
inductive PExpr : Type where
  | num (q : ℚ)
  | strLit (t : String)
  | name (s : String)
  | neg (e : PExpr)
  | pos (e : PExpr)
  | add (a b : PExpr)
  | sub (a b : PExpr)
  | mul (a b : PExpr)
  | div (a b : PExpr)
  | pow (a b : PExpr)
  | call (f : String) (args : PArgs)
  deriving Repr
inductive PArgs : Type where
  | nil
  | cons (e : PExpr) (rest : PArgs)
  deriving Repr
end

/-! Exact rational arithmetic routed through `mkRat` (which the kernel
evaluates), rather than the `@[irreducible]` `Rat` operations; each helper
computes exactly the corresponding `ℚ` operation. -/

/-- Exact rational addition via `mkRat`. -/
def qAdd (x y : ℚ) : ℚ := mkRat (x.num * y.den + y.num * x.den) (x.den * y.den)

/-- Exact rational subtraction via `mkRat`. -/
def qSub (x y : ℚ) : ℚ := qAdd x (-y)

/-- Exact rational multiplication via `mkRat`. -/
def qMul (x y : ℚ) : ℚ := mkRat (x.num * y.num) (x.den * y.den)

/-- Exact rational division via `mkRat` (0 on a zero divisor, which every
caller guards). -/
def qDiv (x y : ℚ) : ℚ :=
  if y.num < 0 then mkRat (-(x.num * y.den)) ((x.den : Int) * y.num).natAbs
  else mkRat (x.num * y.den) ((x.den : Int) * y.num).natAbs

/-- Exact rational inverse via `mkRat`. -/
def qInv (x : ℚ) : ℚ :=
  if x.num < 0 then mkRat (-(x.den : Int)) x.num.natAbs
  else mkRat (x.den : Int) x.num.natAbs

/-- Exact rational power with a natural exponent. -/
def qPowNat (x : ℚ) : Nat → ℚ
  | 0 => 1
  | n + 1 => qMul x (qPowNat x n)

/-- `abs` on rationals. -/
def qAbs (x : ℚ) : ℚ := if x < 0 then -x else x

/-- The exact rational value of the IEEE-754 double `math.pi`. -/
def piRat : ℚ := mkRat 884279719003555 281474976710656

/-- The exact rational value of the IEEE-754 double `math.e`. -/
def eRat : ℚ := mkRat 6121026514868073 2251799813685248

/-- Rational stand-in for a float value outside the rational model (values of
`sin`, `cos`, `tan`, `exp`, `log`, non-integer powers).  No theorem depends
on it. -/
def floatStandIn : ℚ := 0

/-- Floor of a rational (numerator floor-divided by the positive
denominator). -/
def ratFloor (q : ℚ) : ℤ := q.num.fdiv q.den

/-- Ceiling of a rational. -/
def ratCeil (q : ℚ) : ℤ := -((-q.num).fdiv q.den)

/-- Python's banker's rounding (`round`) to an integer: nearest, ties to
even. -/
def roundHalfEven (x : ℚ) : ℤ :=
  let f := ratFloor x
  let r := qSub x ((f : ℤ) : ℚ)
  if r < mkRat 1 2 then f
  else if mkRat 1 2 < r then f + 1
  else if f % 2 = 0 then f
  else f + 1

/-- `10 ^ k` as a rational, for an integer `k`. -/
def pow10 (k : ℤ) : ℚ :=
  if 0 ≤ k then ((10 ^ k.toNat : ℕ) : ℚ)
  else qInv ((10 ^ (-k).toNat : ℕ) : ℚ)

/-- `round(x, k)`: banker's rounding to `k` decimal digits. -/
def pyRoundDigits (x : ℚ) (k : ℤ) : ℚ :=
  qMul ((roundHalfEven (qMul x (pow10 k)) : ℤ) : ℚ) (pow10 (-k))

/-- The post-evaluation rounding of `calculate` (line 186): numeric results
are rounded to 10 decimal digits. -/
def pyRound10 (q : ℚ) : ℚ := pyRoundDigits q 10

/-- Integer square root by Newton iteration (fuel-indexed so the kernel can
evaluate it; the fuel is ample since the iteration halves the error each
step). -/
def natSqrtGo (n : Nat) : Nat → Nat → Nat
  | 0, x => x
  | fuel + 1, x =>
      let y := (x + n / x) / 2
      if y < x then natSqrtGo n fuel y else x

/-- Integer square root (floor). -/
def natSqrt (n : Nat) : Nat :=
  if n ≤ 1 then n else natSqrtGo n n (n / 2 + 1)

/-- `math.sqrt` on a nonnegative rational: exact on perfect squares, a
rational stand-in otherwise (the float value is outside the model). -/
def ratSqrt (x : ℚ) : ℚ :=
  mkRat ((natSqrt x.num.toNat : ℕ) : ℤ) (natSqrt x.den)

/-- Integer power on rationals, negative exponents via the inverse. -/
def zpowQ (x : ℚ) (n : ℤ) : ℚ :=
  if 0 ≤ n then qPowNat x n.toNat else qInv (qPowNat x (-n).toNat)

/-- The `**` operator and two-argument `pow`: integral exponents are exact;
`0` to a negative power raises `ZeroDivisionError`; non-integral exponents
produce floats (stand-in). -/
def powVal (x y : ℚ) : Except PyErr PyVal :=
  if y.den = 1 then
    if x = 0 ∧ y.num < 0 then .error .zeroDiv
    else .ok (.num (zpowQ x y.num))
  else .ok (.num floatStandIn)

/-- The keys of `safe_dict` (constants and functions). -/
def safeNames : List String :=
  ["abs", "round", "min", "max", "sum", "pow", "sqrt", "sin", "cos", "tan",
   "log", "log10", "exp", "pi", "e", "ceil", "floor"]

/-- The function-valued keys of `safe_dict`. -/
def safeFns : List String :=
  ["abs", "round", "min", "max", "sum", "pow", "sqrt", "sin", "cos", "tan",
   "log", "log10", "exp", "ceil", "floor"]

/-- A numeric operand, or the `TypeError` a string or function object
produces where a number is required. -/
def asNum : PyVal → Except PyErr ℚ
  | .num q => .ok q
  | .str _ => .error (.typeErr "unsupported operand type(s)")
  | .func _ => .error (.typeErr "unsupported operand type(s)")

/-- All-numeric argument lists; a function object among the arguments is a
`TypeError` (as in CPython when the math functions receive one). -/
def asNums : List PyVal → Except PyErr (List ℚ)
  | [] => .ok []
  | v :: vs => do pure ((← asNum v) :: (← asNums vs))

/-- `"ab" * n` in Python: `n` copies for a positive integer `n`, empty for
`n ≤ 0`. -/
def strRepeat (t : String) (n : Int) : String :=
  String.join (List.replicate n.toNat t)

/-- Strict lexicographic comparison of character lists by code point, as
Python compares strings. -/
def charListLt : List Char → List Char → Bool
  | [], [] => false
  | [], _ :: _ => true
  | _ :: _, [] => false
  | a :: as, b :: bs => if a = b then charListLt as bs else decide (a.toNat < b.toNat)

/-- One comparison step of `min`/`max`: Python keeps the earlier argument on
ties, compares numbers with numbers and strings with strings, and raises a
`TypeError` on a mixed or function-object comparison. -/
def pyPick (isMin : Bool) (a b : PyVal) : Except PyErr PyVal :=
  match a, b with
  | .num p, .num q =>
      .ok (.num (if isMin then (if q < p then q else p)
                 else (if p < q then q else p)))
  | .str p, .str q =>
      .ok (.str (if isMin then (if charListLt q.toList p.toList then q else p)
                 else (if charListLt p.toList q.toList then q else p)))
  | _, _ => .error (.typeErr "not supported between instances")

/-- Left fold of `pyPick` over the remaining `min`/`max` arguments. -/
def pyMinMaxFold (isMin : Bool) : PyVal → List PyVal → Except PyErr PyVal
  | acc, [] => .ok acc
  | acc, v :: rest => do pyMinMaxFold isMin (← pyPick isMin acc v) rest

/-- `min`/`max` with Python's argument handling: a single number or function
object is not iterable, a single string iterates its characters (empty →
`ValueError`), and two or more arguments are folded pairwise. -/
def pyMinMax (isMin : Bool) (vs : List PyVal) : Except PyErr PyVal :=
  match vs with
  | [] => .error (.typeErr "expected at least 1 argument")
  | [.num _] => .error (.typeErr "int object is not iterable")
  | [.func _] => .error (.typeErr "object is not iterable")
  | [.str t] =>
      match t.toList with
      | [] => .error (.valueErr
          ((if isMin then "min" else "max") ++ "() arg is an empty sequence"))
      | c :: cs =>
          .ok (.str (String.mk [cs.foldl (fun a b =>
            if isMin then (if b.toNat < a.toNat then b else a)
            else (if a.toNat < b.toNat then b else a)) c]))
  | v :: rest => pyMinMaxFold isMin v rest

/-- Apply a `safe_dict` function to already-evaluated numeric arguments,
with CPython's arity, domain and iterability errors (detail text abridged). -/
def applyNum (f : String) (vs : List ℚ) : Except PyErr PyVal :=
  if f = "abs" then
    match vs with
    | [x] => .ok (.num (qAbs x))
    | _ => .error (.typeErr "abs() takes exactly one argument")
  else if f = "round" then
    match vs with
    | [x] => .ok (.num ((roundHalfEven x : ℤ) : ℚ))
    | [x, nd] =>
        if nd.den = 1 then .ok (.num (pyRoundDigits x nd.num))
        else .error (.typeErr "float object cannot be interpreted as an integer")
    | _ => .error (.typeErr "round() takes at most 2 arguments")
  else if f = "pow" then
    match vs with
    | [x, y] => powVal x y
    | _ => .error (.typeErr "pow() arity")
  else if f = "sqrt" then
    match vs with
    | [x] => if x < 0 then .error (.domain "sqrt") else .ok (.num (ratSqrt x))
    | _ => .error (.typeErr "sqrt() takes exactly one argument")
  else if f = "sin" ∨ f = "cos" ∨ f = "tan" ∨ f = "exp" then
    match vs with
    | [_] => .ok (.num floatStandIn)
    | _ => .error (.typeErr "takes exactly one argument")
  else if f = "log" then
    match vs with
    | [x] => if x ≤ 0 then .error (.domain "log") else .ok (.num floatStandIn)
    | [x, b] =>
        if x ≤ 0 ∨ b ≤ 0 then .error (.domain "log")
        else if b = 1 then .error .zeroDiv
        else .ok (.num floatStandIn)
    | _ => .error (.typeErr "log() arity")
  else if f = "log10" then
    match vs with
    | [x] => if x ≤ 0 then .error (.domain "log10") else .ok (.num floatStandIn)
    | _ => .error (.typeErr "log10() takes exactly one argument")
  else if f = "ceil" then
    match vs with
    | [x] => .ok (.num ((ratCeil x : ℤ) : ℚ))
    | _ => .error (.typeErr "ceil() takes exactly one argument")
  else if f = "floor" then
    match vs with
    | [x] => .ok (.num ((ratFloor x : ℤ) : ℚ))
    | _ => .error (.typeErr "floor() takes exactly one argument")
  else .error (.nameErr f)

/-- Apply a `safe_dict` function to already-evaluated arguments: `min` and
`max` compare at the object level, `sum` never accepts a number or a string
(its argument must be an iterable of numbers), and the numeric-only
functions coerce their arguments first (detail text abridged). -/
def applyFn (f : String) (vs : List PyVal) : Except PyErr PyVal :=
  if f = "min" then pyMinMax true vs
  else if f = "max" then pyMinMax false vs
  else if f = "sum" then .error (.typeErr "sum() argument is not summable")
  else do applyNum f (← asNums vs)

mutual
/-- Evaluation of the fragment, mirroring CPython's order: a call resolves
its (name-)callee first, then evaluates arguments left to right, then
applies; binary operators evaluate left then right; a string or function
object used where a number is required is a `TypeError`, while `+` and `*`
also carry Python's string concatenation and repetition. -/
def evalP : PExpr → Except PyErr PyVal
  | .num q => .ok (.num q)
  | .strLit t => .ok (.str t)
  | .name s =>
      if s = "pi" then .ok (.num piRat)
      else if s = "e" then .ok (.num eRat)
      else if safeFns.contains s then .ok (.func s)
      else .error (.nameErr s)
  | .neg e => do
      let x ← asNum (← evalP e)
      pure (.num (-x))
  | .pos e => do
      let x ← asNum (← evalP e)
      pure (.num x)
  | .add a b => do
      let x ← evalP a
      let y ← evalP b
      match x, y with
      | .num p, .num q => pure (.num (qAdd p q))
      | .str p, .str q => pure (.str (p ++ q))
      | _, _ => .error (.typeErr "unsupported operand type(s) for +")
  | .sub a b => do
      let x ← evalP a
      let y ← evalP b
      match x, y with
      | .num p, .num q => pure (.num (qSub p q))
      | _, _ => .error (.typeErr "unsupported operand type(s) for -")
  | .mul a b => do
      let x ← evalP a
      let y ← evalP b
      match x, y with
      | .num p, .num q => pure (.num (qMul p q))
      | .str p, .num q =>
          if q.den = 1 then pure (.str (strRepeat p q.num))
          else .error (.typeErr "cannot multiply sequence by non-int")
      | .num p, .str q =>
          if p.den = 1 then pure (.str (strRepeat q p.num))
          else .error (.typeErr "cannot multiply sequence by non-int")
      | _, _ => .error (.typeErr "unsupported operand type(s) for *")
  | .div a b => do
      let x ← evalP a
      let y ← evalP b
      match x, y with
      | .num p, .num q =>
          if q = 0 then .error .zeroDiv else pure (.num (qDiv p q))
      | _, _ => .error (.typeErr "unsupported operand type(s) for /")
  | .pow a b => do
      let x ← evalP a
      let y ← evalP b
      match x, y with
      | .num p, .num q => powVal p q
      | _, _ => .error (.typeErr "unsupported operand type(s) for **")
  | .call f args =>
      if f = "pi" ∨ f = "e" then do
        let _ ← evalArgs args
        .error (.typeErr "float object is not callable")
      else if safeFns.contains f then do
        let vs ← evalArgs args
        applyFn f vs
      else .error (.nameErr f)
def evalArgs : PArgs → Except PyErr (List PyVal)
  | .nil => .ok []
  | .cons e rest => do pure ((← evalP e) :: (← evalArgs rest))
end

/-! ### Tokenizer and parser for the fragment -/

/-- The tokens of the fragment. -/
inductive Tok : Type where
  | tnum (q : ℚ)
  | tstr (t : String)
  | tname (s : String)
  | tplus
  | tminus
  | tstar
  | tslash
  | tdstar
  | tlpar
  | trpar
  | tcomma
  deriving DecidableEq, Repr

def isDigitCh (c : Char) : Bool := '0' ≤ c && c ≤ '9'

def isIdentStart (c : Char) : Bool := c.isAlpha || c = '_'

def isIdentCh (c : Char) : Bool := c.isAlpha || isDigitCh c || c = '_'

/-- Split off a maximal run of decimal digits. -/
def spanDigits : List Char → List Char × List Char
  | [] => ([], [])
  | c :: cs =>
      if isDigitCh c then
        let (ds, r) := spanDigits cs
        (c :: ds, r)
      else ([], c :: cs)

/-- Split off a maximal run of identifier characters. -/
def spanIdent : List Char → List Char × List Char
  | [] => ([], [])
  | c :: cs =>
      if isIdentCh c then
        let (ds, r) := spanIdent cs
        (c :: ds, r)
      else ([], c :: cs)

/-- The natural number denoted by a digit run. -/
def digitsVal (ds : List Char) : Nat :=
  ds.foldl (fun a c => a * 10 + (c.toNat - 48)) 0

/-- The single-quote string delimiter. -/
def squote : Char := Char.ofNat 39

/-- The double-quote string delimiter. -/
def dquote : Char := Char.ofNat 34

/-- Scan a string-literal body up to the closing delimiter `q`.  Escape
sequences (and unterminated literals) are outside the fragment and yield
`none`. -/
def spanStr (q : Char) : List Char → Option (List Char × List Char)
  | [] => none
  | c :: cs =>
      if c = q then some ([], cs)
      else if c = '\\' then none
      else match spanStr q cs with
        | some (content, r) => some (c :: content, r)
        | none => none

/-- Tokenizer for the fragment (fuel-indexed; `calculate` supplies ample
fuel, and exhaustion is just one more `SyntaxError`).  Scientific-notation
floats, string escape sequences, and operators outside the spec's
`+ - * / **` set are not part of the fragment and tokenize to a
`SyntaxError`. -/
def tokenize : Nat → List Char → Except PyErr (List Tok)
  | 0, _ => .error (.synErr "invalid syntax")
  | _, [] => .ok []
  | fuel + 1, c :: cs =>
      if c = ' ' ∨ c = '\t' then tokenize fuel cs
      else if c = squote ∨ c = dquote then
        match spanStr c cs with
        | some (content, r) =>
            do pure (.tstr (String.mk content) :: (← tokenize fuel r))
        | none => .error (.synErr "invalid syntax")
      else if isDigitCh c then
        let (ds, r1) := spanDigits (c :: cs)
        match r1 with
        | '.' :: r2 =>
            let (fs, r3) := spanDigits r2
            do pure (.tnum (qAdd (digitsVal ds : ℚ)
                 (qDiv (digitsVal fs : ℚ) ((10 ^ fs.length : ℕ) : ℚ)))
               :: (← tokenize fuel r3))
        | _ => do pure (.tnum ((digitsVal ds : ℚ)) :: (← tokenize fuel r1))
      else if isIdentStart c then
        let (ids, r1) := spanIdent (c :: cs)
        do pure (.tname (String.mk ids) :: (← tokenize fuel r1))
      else if c = '+' then do pure (.tplus :: (← tokenize fuel cs))
      else if c = '-' then do pure (.tminus :: (← tokenize fuel cs))
      else if c = '*' then
        match cs with
        | '*' :: cs2 => do pure (.tdstar :: (← tokenize fuel cs2))
        | _ => do pure (.tstar :: (← tokenize fuel cs))
      else if c = '/' then do pure (.tslash :: (← tokenize fuel cs))
      else if c = '(' then do pure (.tlpar :: (← tokenize fuel cs))
      else if c = ')' then do pure (.trpar :: (← tokenize fuel cs))
      else if c = ',' then do pure (.tcomma :: (← tokenize fuel cs))
      else .error (.synErr "invalid syntax")

mutual
/-- Recursive-descent parser for CPython's expression grammar restricted to
the fragment: `expr := term (± term)*`, `term := unary (*/ unary)*`,
`unary := ± unary | power`, `power := primary [** unary]`,
`primary := number | name [( args )] | ( expr )`. Fuel-indexed like the
tokenizer. -/
def parseE : Nat → List Tok → Except PyErr (PExpr × List Tok)
  | 0, _ => .error (.synErr "invalid syntax")
  | f + 1, ts => do
      let (a, r) ← parseT f ts
      parseELoop f a r
def parseELoop : Nat → PExpr → List Tok → Except PyErr (PExpr × List Tok)
  | 0, _, _ => .error (.synErr "invalid syntax")
  | f + 1, a, .tplus :: r => do
      let (b, r2) ← parseT f r
      parseELoop f (.add a b) r2
  | f + 1, a, .tminus :: r => do
      let (b, r2) ← parseT f r
      parseELoop f (.sub a b) r2
  | _ + 1, a, ts => .ok (a, ts)
def parseT : Nat → List Tok → Except PyErr (PExpr × List Tok)
  | 0, _ => .error (.synErr "invalid syntax")
  | f + 1, ts => do
      let (a, r) ← parseU f ts
      parseTLoop f a r
def parseTLoop : Nat → PExpr → List Tok → Except PyErr (PExpr × List Tok)
  | 0, _, _ => .error (.synErr "invalid syntax")
  | f + 1, a, .tstar :: r => do
      let (b, r2) ← parseU f r
      parseTLoop f (.mul a b) r2
  | f + 1, a, .tslash :: r => do
      let (b, r2) ← parseU f r
      parseTLoop f (.div a b) r2
  | _ + 1, a, ts => .ok (a, ts)
def parseU : Nat → List Tok → Except PyErr (PExpr × List Tok)
  | 0, _ => .error (.synErr "invalid syntax")
  | f + 1, .tminus :: r => do
      let (e, r2) ← parseU f r
      .ok (.neg e, r2)
  | f + 1, .tplus :: r => do
      let (e, r2) ← parseU f r
      .ok (.pos e, r2)
  | f + 1, ts => parseP f ts
def parseP : Nat → List Tok → Except PyErr (PExpr × List Tok)
  | 0, _ => .error (.synErr "invalid syntax")
  | f + 1, ts => do
      let (a, r) ← parsePrim f ts
      match r with
      | .tdstar :: r2 => do
          let (b, r3) ← parseU f r2
          .ok (.pow a b, r3)
      | _ => .ok (a, r)
def parsePrim : Nat → List Tok → Except PyErr (PExpr × List Tok)
  | 0, _ => .error (.synErr "invalid syntax")
  | _ + 1, .tnum q :: r => .ok (.num q, r)
  | _ + 1, .tstr t :: r => .ok (.strLit t, r)
  | _ + 1, .tname s :: .tlpar :: .trpar :: r2 => .ok (.call s .nil, r2)
  | f + 1, .tname s :: .tlpar :: r => do
      let (args, r2) ← parseArgs f r
      match r2 with
      | .trpar :: r3 => .ok (.call s args, r3)
      | _ => .error (.synErr "invalid syntax")
  | _ + 1, .tname s :: r => .ok (.name s, r)
  | f + 1, .tlpar :: r => do
      let (e, r2) ← parseE f r
      match r2 with
      | .trpar :: r3 => .ok (e, r3)
      | _ => .error (.synErr "invalid syntax")
  | _ + 1, _ => .error (.synErr "invalid syntax")
def parseArgs : Nat → List Tok → Except PyErr (PArgs × List Tok)
  | 0, _ => .error (.synErr "invalid syntax")
  | f + 1, ts => do
      let (e, r) ← parseE f ts
      match r with
      | .tcomma :: r2 => do
          let (rest, r3) ← parseArgs f r2
          .ok (.cons e rest, r3)
      | _ => .ok (.cons e .nil, r)
end

/-- Tokenize and parse a whole input string.  The parser fuel bounds the
total number of parser calls; every call either consumes a token or descends
one of the six fixed grammar levels, so `10 × (tokens + 1)` is ample. -/
def parseExpression (s : String) : Except PyErr PExpr := do
  let ts ← tokenize (s.toList.length + 1) s.toList
  let (e, rest) ← parseE (10 * (ts.length + 1)) ts
  match rest with
  | [] => .ok e
  | _ => .error (.synErr "invalid syntax")

/-! ### `UnitConverter.calculate` and its caller in `server.py` -/

/-- The value `calculate` returns: either the evaluation result (a Python
object) or the ❌-prefixed error string built from a caught exception. -/
inductive CalcResult : Type where
  | value (v : PyVal)
  | err (s : String)
  deriving DecidableEq, Repr

/-- `str(e)` of the caught exception (CPython quotes the identifier of a
`NameError` message; the quotes are omitted here, and abridged detail texts
are passed through). -/
def renderPyErr : PyErr → String
  | .domain _ => "math domain error"
  | .zeroDiv => "division by zero"
  | .nameErr n => "name " ++ n ++ " is not defined"
  | .typeErr d => d
  | .valueErr d => d
  | .synErr d => d

/-- Line 186: `round(result, 10) if isinstance(result, float) else result` —
numeric results are rounded to 10 decimal digits, any other object is
returned untouched. -/
def pyRoundVal : PyVal → PyVal
  | .num q => .num (pyRound10 q)
  | v => v

/-- `UnitConverter.calculate`: the forbidden-substring guard, then the
restricted-namespace evaluation with every raised exception caught and
rendered into an ❌-prefixed string (lines 178–188). -/
def calculate (s : String) : CalcResult :=
  if forbiddenHit s then .err "❌ Expression contains forbidden operations"
  else
    match parseExpression s with
    | .error e => .err ("❌ Calculation error: " ++ renderPyErr e)
    | .ok ast =>
        match evalP ast with
        | .ok v => .value (pyRoundVal v)
        | .error e => .err ("❌ Calculation error: " ++ renderPyErr e)

/-- How a returned value is rendered into the caller's f-string (numeric
formatting is outside the model's scope; function objects render as their
CPython repr). -/
def renderVal : PyVal → String
  | .num q => toString q
  | .str t => t
  | .func n => "<built-in function " ++ n ++ ">"

/-- The `calculate` tool of `server.py` (lines 124–134): the caller branches
on `isinstance(result, str)`.  That test is true both for the ❌ error
strings and for a string-valued evaluation result, so both are returned
bare; any other value is formatted as `f"🧮 {expression} = {result}"`. -/
def serverCalculate (s : String) : String :=
  match calculate s with
  | .err m => m
  | .value (.str t) => t
  | .value v => "🧮 " ++ s ++ " = " ++ renderVal v

/-! ## `GeneratorTools.hash_string` and the hashlib algorithms

`hash_string` dispatches on the algorithm name and returns
`hashlib.<alg>(text.encode()).hexdigest()`.  The four digest algorithms are
implemented below from their standards (which is the documented behaviour of
`hashlib`), over byte lists with word arithmetic carried out in `Nat` and
reduced modulo the word size.  `text.encode()` is UTF-8. -/

/-- UTF-8 encoding of one code point (what `str.encode()` emits per
character). -/
def utf8Char (c : Char) : List Nat :=
  let n := c.toNat
  if n < 128 then [n]
  else if n < 2048 then
    [192 + n / 64, 128 + n % 64]
  else if n < 65536 then
    [224 + n / 4096, 128 + n / 64 % 64, 128 + n % 64]
  else
    [240 + n / 262144, 128 + n / 4096 % 64, 128 + n / 64 % 64, 128 + n % 64]

/-- `text.encode()`: the UTF-8 bytes of a string. -/
def utf8Bytes (s : String) : List Nat :=
  s.toList.foldr (fun c acc => utf8Char c ++ acc) []

/-- Reduce to a 32-bit word. -/
def w32 (n : Nat) : Nat := n % 4294967296

/-- Reduce to a 64-bit word. -/
def w64 (n : Nat) : Nat := n % 18446744073709551616

/-- 32-bit left rotation (for `x < 2^32`). -/
def rotl32 (x s : Nat) : Nat := (w32 (x <<< s)) ||| (x >>> (32 - s))

/-- 32-bit right rotation (for `x < 2^32`). -/
def rotr32 (x s : Nat) : Nat := (x >>> s) ||| (w32 (x <<< (32 - s)))

/-- 64-bit right rotation (for `x < 2^64`). -/
def rotr64 (x s : Nat) : Nat := (x >>> s) ||| (w64 (x <<< (64 - s)))

/-- 32-bit complement (for `x < 2^32`). -/
def comp32 (x : Nat) : Nat := 4294967295 - x

/-- 64-bit complement (for `x < 2^64`). -/
def comp64 (x : Nat) : Nat := 18446744073709551615 - x

/-- `n` as `k` big-endian bytes. -/
def toBytesBE (k n : Nat) : List Nat :=
  (List.range k).map fun i => n >>> (8 * (k - 1 - i)) % 256

/-- `n` as `k` little-endian bytes. -/
def toBytesLE (k n : Nat) : List Nat :=
  (List.range k).map fun i => n >>> (8 * i) % 256

/-- Group a byte list into `count` big-endian words of `wb` bytes each. -/
def wordsBE (wb : Nat) : Nat → List Nat → List Nat
  | 0, _ => []
  | count + 1, bs =>
      ((bs.take wb).foldl (fun a b => a * 256 + b) 0) :: wordsBE wb count (bs.drop wb)

/-- Group a byte list into `count` little-endian words of `wb` bytes each. -/
def wordsLE (wb : Nat) : Nat → List Nat → List Nat
  | 0, _ => []
  | count + 1, bs =>
      ((bs.take wb).foldr (fun b a => a * 256 + b) 0) :: wordsLE wb count (bs.drop wb)

/-- A word as `digits` lowercase hex digits, most significant first. -/
def wordToHex (w digits : Nat) : List Char :=
  (List.range digits).map fun i => hexDigit (w >>> (4 * (digits - 1 - i)))

/-- Iterate a function `n` times. -/
def iterN (f : α → α) : Nat → α → α
  | 0, a => a
  | n + 1, a => iterN f n (f a)

/-- Merkle–Damgård padding: `0x80`, zeros, then the bit length in a
`lenBytes`-byte big-endian field, to a multiple of `block` bytes. -/
def padBE (block lenBytes : Nat) (msg : List Nat) : List Nat :=
  msg ++ [128]
    ++ List.replicate ((2 * block - 1 - lenBytes - msg.length % block) % block) 0
    ++ toBytesBE lenBytes (msg.length * 8)

/-- MD5 padding: like `padBE` but the 8-byte bit length is little-endian. -/
def padLE64 (msg : List Nat) : List Nat :=
  msg ++ [128]
    ++ List.replicate ((119 - msg.length % 64) % 64) 0
    ++ toBytesLE 8 (msg.length * 8)

/-! ### SHA-256 -/

/-- The 64 SHA-256 round constants. -/
def sha256K : List Nat := [
   1116352408, 1899447441, 3049323471, 3921009573,
   961987163, 1508970993, 2453635748, 2870763221,
   3624381080, 310598401, 607225278, 1426881987,
   1925078388, 2162078206, 2614888103, 3248222580,
   3835390401, 4022224774, 264347078, 604807628,
   770255983, 1249150122, 1555081692, 1996064986,
   2554220882, 2821834349, 2952996808, 3210313671,
   3336571891, 3584528711, 113926993, 338241895,
   666307205, 773529912, 1294757372, 1396182291,
   1695183700, 1986661051, 2177026350, 2456956037,
   2730485921, 2820302411, 3259730800, 3345764771,
   3516065817, 3600352804, 4094571909, 275423344,
   430227734, 506948616, 659060556, 883997877,
   958139571, 1322822218, 1537002063, 1747873779,
   1955562222, 2024104815, 2227730452, 2361852424,
   2428436474, 2756734187, 3204031479, 3329325298]

/-- The SHA-256 working state. -/
structure H8 where
  a : Nat
  b : Nat
  c : Nat
  d : Nat
  e : Nat
  f : Nat
  g : Nat
  h : Nat

/-- One SHA-256 message-schedule extension step: append
`w[i-16] + s0(w[i-15]) + w[i-7] + s1(w[i-2])`. -/
def sha256Extend (ws : List Nat) : List Nat :=
  let len := ws.length
  let w15 := ws.getD (len - 15) 0
  let w2 := ws.getD (len - 2) 0
  let w16 := ws.getD (len - 16) 0
  let w7 := ws.getD (len - 7) 0
  let s0 := (rotr32 w15 7) ^^^ (rotr32 w15 18) ^^^ (w15 >>> 3)
  let s1 := (rotr32 w2 17) ^^^ (rotr32 w2 19) ^^^ (w2 >>> 10)
  ws ++ [w32 (w16 + s0 + w7 + s1)]

/-- One SHA-256 compression round. -/
def sha256Step (s : H8) (kw : Nat × Nat) : H8 :=
  let S1 := (rotr32 s.e 6) ^^^ (rotr32 s.e 11) ^^^ (rotr32 s.e 25)
  let ch := (s.e &&& s.f) ^^^ ((comp32 s.e) &&& s.g)
  let temp1 := w32 (s.h + S1 + ch + kw.1 + kw.2)
  let S0 := (rotr32 s.a 2) ^^^ (rotr32 s.a 13) ^^^ (rotr32 s.a 22)
  let maj := (s.a &&& s.b) ^^^ (s.a &&& s.c) ^^^ (s.b &&& s.c)
  let temp2 := w32 (S0 + maj)
  ⟨w32 (temp1 + temp2), s.a, s.b, s.c, w32 (s.d + temp1), s.e, s.f, s.g⟩

/-- Process `count` 64-byte blocks. -/
def sha256Blocks : Nat → List Nat → H8 → H8
  | 0, _, h0 => h0
  | count + 1, bs, h0 =>
      let ws := iterN sha256Extend 48 (wordsBE 4 16 (bs.take 64))
      let s := (sha256K.zip ws).foldl sha256Step h0
      sha256Blocks count (bs.drop 64)
        ⟨w32 (h0.a + s.a), w32 (h0.b + s.b), w32 (h0.c + s.c), w32 (h0.d + s.d),
         w32 (h0.e + s.e), w32 (h0.f + s.f), w32 (h0.g + s.g), w32 (h0.h + s.h)⟩

/-- `hashlib.sha256(msg).hexdigest()` on a byte list. -/
def sha256Hex (msg : List Nat) : String :=
  let padded := padBE 64 8 msg
  let h := sha256Blocks (padded.length / 64) padded
    ⟨1779033703, 3144134277, 1013904242, 2773480762,
     1359893119, 2600822924, 528734635, 1541459225⟩
  String.mk (([h.a, h.b, h.c, h.d, h.e, h.f, h.g, h.h].map
    fun w => wordToHex w 8).flatten)

/-! ### SHA-512 -/

/-- The 80 SHA-512 round constants. -/
def sha512K : List Nat := [
   4794697086780616226, 8158064640168781261,
   13096744586834688815, 16840607885511220156,
   4131703408338449720, 6480981068601479193,
   10538285296894168987, 12329834152419229976,
   15566598209576043074, 1334009975649890238,
   2608012711638119052, 6128411473006802146,
   8268148722764581231, 9286055187155687089,
   11230858885718282805, 13951009754708518548,
   16472876342353939154, 17275323862435702243,
   1135362057144423861, 2597628984639134821,
   3308224258029322869, 5365058923640841347,
   6679025012923562964, 8573033837759648693,
   10970295158949994411, 12119686244451234320,
   12683024718118986047, 13788192230050041572,
   14330467153632333762, 15395433587784984357,
   489312712824947311, 1452737877330783856,
   2861767655752347644, 3322285676063803686,
   5560940570517711597, 5996557281743188959,
   7280758554555802590, 8532644243296465576,
   9350256976987008742, 10552545826968843579,
   11727347734174303076, 12113106623233404929,
   14000437183269869457, 14369950271660146224,
   15101387698204529176, 15463397548674623760,
   17586052441742319658, 1182934255886127544,
   1847814050463011016, 2177327727835720531,
   2830643537854262169, 3796741975233480872,
   4115178125766777443, 5681478168544905931,
   6601373596472566643, 7507060721942968483,
   8399075790359081724, 8693463985226723168,
   9568029438360202098, 10144078919501101548,
   10430055236837252648, 11840083180663258601,
   13761210420658862357, 14299343276471374635,
   14566680578165727644, 15097957966210449927,
   16922976911328602910, 17689382322260857208,
   500013540394364858, 748580250866718886,
   1242879168328830382, 1977374033974150939,
   2944078676154940804, 3659926193048069267,
   4368137639120453308, 4836135668995329356,
   5532061633213252278, 6448918945643986474,
   6902733635092675308, 7801388544844847127]

/-- One SHA-512 message-schedule extension step. -/
def sha512Extend (ws : List Nat) : List Nat :=
  let len := ws.length
  let w15 := ws.getD (len - 15) 0
  let w2 := ws.getD (len - 2) 0
  let w16 := ws.getD (len - 16) 0
  let w7 := ws.getD (len - 7) 0
  let s0 := (rotr64 w15 1) ^^^ (rotr64 w15 8) ^^^ (w15 >>> 7)
  let s1 := (rotr64 w2 19) ^^^ (rotr64 w2 61) ^^^ (w2 >>> 6)
  ws ++ [w64 (w16 + s0 + w7 + s1)]

/-- One SHA-512 compression round. -/
def sha512Step (s : H8) (kw : Nat × Nat) : H8 :=
  let S1 := (rotr64 s.e 14) ^^^ (rotr64 s.e 18) ^^^ (rotr64 s.e 41)
  let ch := (s.e &&& s.f) ^^^ ((comp64 s.e) &&& s.g)
  let temp1 := w64 (s.h + S1 + ch + kw.1 + kw.2)
  let S0 := (rotr64 s.a 28) ^^^ (rotr64 s.a 34) ^^^ (rotr64 s.a 39)
  let maj := (s.a &&& s.b) ^^^ (s.a &&& s.c) ^^^ (s.b &&& s.c)
  let temp2 := w64 (S0 + maj)
  ⟨w64 (temp1 + temp2), s.a, s.b, s.c, w64 (s.d + temp1), s.e, s.f, s.g⟩

/-- Process `count` 128-byte blocks. -/
def sha512Blocks : Nat → List Nat → H8 → H8
  | 0, _, h0 => h0
  | count + 1, bs, h0 =>
      let ws := iterN sha512Extend 64 (wordsBE 8 16 (bs.take 128))
      let s := (sha512K.zip ws).foldl sha512Step h0
      sha512Blocks count (bs.drop 128)
        ⟨w64 (h0.a + s.a), w64 (h0.b + s.b), w64 (h0.c + s.c), w64 (h0.d + s.d),
         w64 (h0.e + s.e), w64 (h0.f + s.f), w64 (h0.g + s.g), w64 (h0.h + s.h)⟩

/-- `hashlib.sha512(msg).hexdigest()` on a byte list. -/
def sha512Hex (msg : List Nat) : String :=
  let padded := padBE 128 16 msg
  let h := sha512Blocks (padded.length / 128) padded
    ⟨7640891576956012808, 13503953896175478587, 4354685564936845355,
     11912009170470909681, 5840696475078001361, 11170449401992604703,
     2270897969802886507, 6620516959819538809⟩
  String.mk (([h.a, h.b, h.c, h.d, h.e, h.f, h.g, h.h].map
    fun w => wordToHex w 16).flatten)

/-! ### SHA-1 -/

/-- The SHA-1 working state. -/
structure H5 where
  a : Nat
  b : Nat
  c : Nat
  d : Nat
  e : Nat

/-- One SHA-1 message-schedule extension step:
`rotl1(w[i-3] ^ w[i-8] ^ w[i-14] ^ w[i-16])`. -/
def sha1Extend (ws : List Nat) : List Nat :=
  let len := ws.length
  let x := (ws.getD (len - 3) 0) ^^^ (ws.getD (len - 8) 0)
    ^^^ (ws.getD (len - 14) 0) ^^^ (ws.getD (len - 16) 0)
  ws ++ [rotl32 x 1]

/-- One SHA-1 round; `i` selects the round function and constant. -/
def sha1Step (s : H5) (iw : Nat × Nat) : H5 :=
  let i := iw.1
  let fk : Nat × Nat :=
    if i < 20 then ((s.b &&& s.c) ||| ((comp32 s.b) &&& s.d), 1518500249)
    else if i < 40 then (s.b ^^^ s.c ^^^ s.d, 1859775393)
    else if i < 60 then
      ((s.b &&& s.c) ||| (s.b &&& s.d) ||| (s.c &&& s.d), 2400959708)
    else (s.b ^^^ s.c ^^^ s.d, 3395469782)
  let temp := w32 ((rotl32 s.a 5) + fk.1 + s.e + fk.2 + iw.2)
  ⟨temp, s.a, rotl32 s.b 30, s.c, s.d⟩

/-- Process `count` 64-byte blocks. -/
def sha1Blocks : Nat → List Nat → H5 → H5
  | 0, _, h0 => h0
  | count + 1, bs, h0 =>
      let ws := iterN sha1Extend 64 (wordsBE 4 16 (bs.take 64))
      let s := ((List.range 80).zip ws).foldl sha1Step h0
      sha1Blocks count (bs.drop 64)
        ⟨w32 (h0.a + s.a), w32 (h0.b + s.b), w32 (h0.c + s.c),
         w32 (h0.d + s.d), w32 (h0.e + s.e)⟩

/-- `hashlib.sha1(msg).hexdigest()` on a byte list. -/
def sha1Hex (msg : List Nat) : String :=
  let padded := padBE 64 8 msg
  let h := sha1Blocks (padded.length / 64) padded
    ⟨1732584193, 4023233417, 2562383102, 271733878, 3285377520⟩
  String.mk (([h.a, h.b, h.c, h.d, h.e].map fun w => wordToHex w 8).flatten)

/-! ### MD5 -/

/-- The 64 MD5 sine-derived constants. -/
def md5T : List Nat := [
   3614090360, 3905402710, 606105819, 3250441966,
   4118548399, 1200080426, 2821735955, 4249261313,
   1770035416, 2336552879, 4294925233, 2304563134,
   1804603682, 4254626195, 2792965006, 1236535329,
   4129170786, 3225465664, 643717713, 3921069994,
   3593408605, 38016083, 3634488961, 3889429448,
   568446438, 3275163606, 4107603335, 1163531501,
   2850285829, 4243563512, 1735328473, 2368359562,
   4294588738, 2272392833, 1839030562, 4259657740,
   2763975236, 1272893353, 4139469664, 3200236656,
   681279174, 3936430074, 3572445317, 76029189,
   3654602809, 3873151461, 530742520, 3299628645,
   4096336452, 1126891415, 2878612391, 4237533241,
   1700485571, 2399980690, 4293915773, 2240044497,
   1873313359, 4264355552, 2734768916, 1309151649,
   4149444226, 3174756917, 718787259, 3951481745]

/-- The MD5 per-round left-rotation amounts. -/
def md5S : List Nat := [
   7, 12, 17, 22, 7, 12, 17, 22, 7, 12, 17, 22, 7, 12, 17, 22,
   5, 9, 14, 20, 5, 9, 14, 20, 5, 9, 14, 20, 5, 9, 14, 20,
   4, 11, 16, 23, 4, 11, 16, 23, 4, 11, 16, 23, 4, 11, 16, 23,
   6, 10, 15, 21, 6, 10, 15, 21, 6, 10, 15, 21, 6, 10, 15, 21]

/-- The MD5 message-word index for each round. -/
def md5G : List Nat := [
   0, 1, 2, 3, 4, 5, 6, 7, 8, 9, 10, 11, 12, 13, 14, 15,
   1, 6, 11, 0, 5, 10, 15, 4, 9, 14, 3, 8, 13, 2, 7, 12,
   5, 8, 11, 14, 1, 4, 7, 10, 13, 0, 3, 6, 9, 12, 15, 2,
   0, 7, 14, 5, 12, 3, 10, 1, 8, 15, 6, 13, 4, 11, 2, 9]

/-- The MD5 working state (little-endian words A B C D). -/
structure H4 where
  a : Nat
  b : Nat
  c : Nat
  d : Nat

/-- One MD5 round; `i` selects the round function, constant, rotation and
message word (from `m`, the 16 words of the block). -/
def md5Step (m : List Nat) (s : H4) (i : Nat) : H4 :=
  let f :=
    if i < 16 then (s.b &&& s.c) ||| ((comp32 s.b) &&& s.d)
    else if i < 32 then (s.d &&& s.b) ||| ((comp32 s.d) &&& s.c)
    else if i < 48 then s.b ^^^ s.c ^^^ s.d
    else s.c ^^^ (s.b ||| (comp32 s.d))
  let mg := m.getD (md5G.getD i 0) 0
  let rot := rotl32 (w32 (s.a + f + md5T.getD i 0 + mg)) (md5S.getD i 0)
  ⟨s.d, w32 (s.b + rot), s.b, s.c⟩

/-- Process `count` 64-byte blocks. -/
def md5Blocks : Nat → List Nat → H4 → H4
  | 0, _, h0 => h0
  | count + 1, bs, h0 =>
      let m := wordsLE 4 16 (bs.take 64)
      let s := (List.range 64).foldl (md5Step m) h0
      md5Blocks count (bs.drop 64)
        ⟨w32 (h0.a + s.a), w32 (h0.b + s.b), w32 (h0.c + s.c), w32 (h0.d + s.d)⟩

/-- `hashlib.md5(msg).hexdigest()` on a byte list: the final words are
emitted as little-endian bytes. -/
def md5Hex (msg : List Nat) : String :=
  let padded := padLE64 msg
  let h := md5Blocks (padded.length / 64) padded
    ⟨1732584193, 4023233417, 2562383102, 271733878⟩
  String.mk ((([h.a, h.b, h.c, h.d].map fun w => toBytesLE 4 w).flatten.map
    fun b => byteToHex b).flatten)

/-- `GeneratorTools.hash_string(text, algorithm)`: dispatch on the algorithm
name over the `algorithms` dict; unknown names raise the `ValueError` of
line 155. -/
def hash_string (text alg : String) : Except String String :=
  if alg = "md5" then .ok (md5Hex (utf8Bytes text))
  else if alg = "sha1" then .ok (sha1Hex (utf8Bytes text))
  else if alg = "sha256" then .ok (sha256Hex (utf8Bytes text))
  else if alg = "sha512" then .ok (sha512Hex (utf8Bytes text))
  else .error "Unsupported algorithm. Choose from: md5, sha1, sha256, sha512"

/-! ## Supporting lemmas: the random-source model -/

theorem secretsRandbelow_lt (t : Tape) (pos n : Nat) (hn : 0 < n) :
    secretsRandbelow t pos n < n :=
  Nat.mod_lt _ hn

theorem secretsChoice_mem (t : Tape) (pos : Nat) (pool : List Char)
    (h : pool ≠ []) : secretsChoice t pos pool ∈ pool := by
  have hlen : 0 < pool.length := List.length_pos.mpr h
  have hlt : t pos % pool.length < pool.length := Nat.mod_lt _ hlen
  unfold secretsChoice
  rw [List.getD_eq_getElem _ _ hlt]
  exact List.getElem_mem hlt

/-! ## Supporting lemmas: swapping and the Fisher–Yates pass -/

theorem swapList_length (l : List Char) (i j : Nat) :
    (swapList l i j).length = l.length := by
  simp [swapList]

theorem swapList_count (l : List Char) (i j : Nat) (hi : i < l.length)
    (hj : j < l.length) (b : Char) :
    (swapList l i j).count b = l.count b := by
  unfold swapList
  rw [List.getD_eq_getElem _ _ hi, List.getD_eq_getElem _ _ hj]
  have hj2 : j < (l.set i l[j]).length := by simpa using hj
  rw [List.count_set _ _ _ _ hj2, List.count_set _ _ _ _ hi]
  have hci : (if (l[i] == b) = true then 1 else 0) ≤ l.count b := by
    split
    · next hb =>
        have hmem : b ∈ l := (eq_of_beq hb) ▸ List.getElem_mem hi
        exact List.one_le_count_iff.mpr hmem
    · exact Nat.zero_le _
  have hcj : (if (l[j] == b) = true then 1 else 0) ≤ l.count b := by
    split
    · next hb =>
        have hmem : b ∈ l := (eq_of_beq hb) ▸ List.getElem_mem hj
        exact List.one_le_count_iff.mpr hmem
    · exact Nat.zero_le _
  by_cases hij : i = j
  · subst hij
    rw [List.getElem_set_self]
    omega
  · rw [List.getElem_set_ne hij]
    omega

theorem swapList_perm (l : List Char) (i j : Nat) (hi : i < l.length)
    (hj : j < l.length) : List.Perm (swapList l i j) l :=
  List.perm_iff_count.mpr fun b => swapList_count l i j hi hj b

theorem fyGo_perm (t : Tape) :
    ∀ (n pos : Nat) (l : List Char), n < l.length → List.Perm (fyGo t pos l n) l
  | 0, _, l, _ => .refl l
  | n + 1, pos, l, h => by
      have hj : secretsRandbelow t pos (n + 2) < n + 2 :=
        secretsRandbelow_lt t pos (n + 2) (by omega)
      have hswap : List.Perm (swapList l (n + 1) (secretsRandbelow t pos (n + 2))) l :=
        swapList_perm l _ _ h (by omega)
      have hlen : (swapList l (n + 1) (secretsRandbelow t pos (n + 2))).length
          = l.length := swapList_length _ _ _
      exact (fyGo_perm t n (pos + 1) _ (by omega)).trans hswap

theorem fyShuffle_perm (t : Tape) (pos : Nat) (l : List Char) :
    List.Perm (fyShuffle t pos l) l := by
  unfold fyShuffle
  match l with
  | [] => exact .refl _
  | a :: l' => exact fyGo_perm t _ pos _ (by simp)

theorem fyShuffle_length (t : Tape) (pos : Nat) (l : List Char) :
    (fyShuffle t pos l).length = l.length :=
  (fyShuffle_perm t pos l).length_eq

/-! ## Supporting lemmas: seeding and filling -/

theorem seedStep_length (t : Tape) (flag : Bool) (pool : List Char)
    (acc : List Char × Nat) :
    (seedStep t flag pool acc).1.length
      = acc.1.length + (if flag then 1 else 0) := by
  unfold seedStep
  split <;> simp

theorem seedStep_mem_of_mem (t : Tape) (flag : Bool) (pool : List Char)
    (acc : List Char × Nat) {c : Char} (hc : c ∈ acc.1) :
    c ∈ (seedStep t flag pool acc).1 := by
  unfold seedStep
  split <;> simp [hc]

theorem seedStep_has (t : Tape) (pool : List Char) (acc : List Char × Nat)
    (hne : pool ≠ []) :
    ∃ c ∈ (seedStep t true pool acc).1, c ∈ pool := by
  unfold seedStep
  exact ⟨secretsChoice t acc.2 pool, by simp, secretsChoice_mem t acc.2 pool hne⟩

theorem seedStep_all (t : Tape) (flag : Bool) (pool : List Char)
    (acc : List Char × Nat) {P : Char → Prop}
    (hacc : ∀ c ∈ acc.1, P c) (hne : pool ≠ [])
    (hpool : flag = true → ∀ c ∈ pool, P c) :
    ∀ c ∈ (seedStep t flag pool acc).1, P c := by
  unfold seedStep
  split
  · next hf =>
      intro c hc
      rcases List.mem_append.mp hc with h | h
      · exact hacc c h
      · have : c = secretsChoice t acc.2 pool := by simpa using h
        exact hpool hf c (this ▸ secretsChoice_mem t acc.2 pool hne)
  · exact hacc

theorem passwordFill_length (t : Tape) (pool : List Char) :
    ∀ (pos n : Nat), (passwordFill t pool pos n).length = n
  | _, 0 => rfl
  | pos, n + 1 => by
      simp [passwordFill, passwordFill_length t pool (pos + 1) n]

theorem passwordFill_mem (t : Tape) (pool : List Char) (hne : pool ≠ []) :
    ∀ (pos n : Nat), ∀ c ∈ passwordFill t pool pos n, c ∈ pool
  | _, 0 => by simp [passwordFill]
  | pos, n + 1 => by
      intro c hc
      rcases (by simpa [passwordFill] using hc :
          c = secretsChoice t pos pool ∨ c ∈ passwordFill t pool (pos + 1) n)
        with h | h
      · exact h ▸ secretsChoice_mem t pos pool hne
      · exact passwordFill_mem t pool hne (pos + 1) n c h

/-! ## Supporting lemmas: the character classes and the union pool -/

theorem ascii_uppercase_ne : ascii_uppercase ≠ [] := by decide
theorem ascii_lowercase_ne : ascii_lowercase ≠ [] := by decide
theorem asciiDigits_ne : asciiDigits ≠ [] := by decide
theorem passwordSymbols_ne : passwordSymbols ≠ [] := by decide

/-- The four character classes are pairwise disjoint. -/
theorem classes_disjoint :
    (∀ c ∈ ascii_lowercase, c ∉ ascii_uppercase) ∧
    (∀ c ∈ asciiDigits, c ∉ ascii_uppercase) ∧
    (∀ c ∈ passwordSymbols, c ∉ ascii_uppercase) ∧
    (∀ c ∈ ascii_uppercase, c ∉ ascii_lowercase) ∧
    (∀ c ∈ asciiDigits, c ∉ ascii_lowercase) ∧
    (∀ c ∈ passwordSymbols, c ∉ ascii_lowercase) ∧
    (∀ c ∈ ascii_uppercase, c ∉ asciiDigits) ∧
    (∀ c ∈ ascii_lowercase, c ∉ asciiDigits) ∧
    (∀ c ∈ passwordSymbols, c ∉ asciiDigits) ∧
    (∀ c ∈ ascii_uppercase, c ∉ passwordSymbols) ∧
    (∀ c ∈ ascii_lowercase, c ∉ passwordSymbols) ∧
    (∀ c ∈ asciiDigits, c ∉ passwordSymbols) := by
  decide

theorem passwordPool_isEmpty (u lo d sy : Bool) :
    (passwordPool u lo d sy).isEmpty = !(u || lo || d || sy) := by
  cases u <;> cases lo <;> cases d <;> cases sy <;> decide

theorem passwordPool_sub (u lo d sy : Bool) :
    ∀ c ∈ passwordPool u lo d sy,
      (u = true ∧ c ∈ ascii_uppercase) ∨ (lo = true ∧ c ∈ ascii_lowercase) ∨
      (d = true ∧ c ∈ asciiDigits) ∨ (sy = true ∧ c ∈ passwordSymbols) := by
  intro c hc
  unfold passwordPool at hc
  cases u <;> cases lo <;> cases d <;> cases sy <;> simp_all

theorem passwordPool_ne (u lo d sy : Bool) (hcls : (u || lo || d || sy) = true) :
    passwordPool u lo d sy ≠ [] := by
  intro h
  have := passwordPool_isEmpty u lo d sy
  rw [h, hcls] at this
  simp at this

theorem passwordSeeds_length (t : Tape) (pos : Nat) (u lo d sy : Bool) :
    (passwordSeeds t pos u lo d sy).1.length
      = (if u then 1 else 0) + (if lo then 1 else 0) +
        (if d then 1 else 0) + (if sy then 1 else 0) := by
  unfold passwordSeeds
  rw [seedStep_length, seedStep_length, seedStep_length, seedStep_length]
  simp

theorem passwordSeeds_all (t : Tape) (pos : Nat) (u lo d sy : Bool)
    {P : Char → Prop}
    (hu : u = true → ∀ c ∈ ascii_uppercase, P c)
    (hlo : lo = true → ∀ c ∈ ascii_lowercase, P c)
    (hd : d = true → ∀ c ∈ asciiDigits, P c)
    (hsy : sy = true → ∀ c ∈ passwordSymbols, P c) :
    ∀ c ∈ (passwordSeeds t pos u lo d sy).1, P c := by
  unfold passwordSeeds
  exact seedStep_all _ _ _ _
    (seedStep_all _ _ _ _
      (seedStep_all _ _ _ _
        (seedStep_all _ _ _ _ (by simp) ascii_uppercase_ne hu)
        ascii_lowercase_ne hlo)
      asciiDigits_ne hd)
    passwordSymbols_ne hsy

theorem passwordSeeds_cover_upper (t : Tape) (pos : Nat) (lo d sy : Bool) :
    ∃ c ∈ (passwordSeeds t pos true lo d sy).1, c ∈ ascii_uppercase := by
  unfold passwordSeeds
  obtain ⟨c, hc, hcls⟩ := seedStep_has t ascii_uppercase ([], pos) ascii_uppercase_ne
  exact ⟨c, seedStep_mem_of_mem _ _ _ _
    (seedStep_mem_of_mem _ _ _ _ (seedStep_mem_of_mem _ _ _ _ hc)), hcls⟩

theorem passwordSeeds_cover_lower (t : Tape) (pos : Nat) (u d sy : Bool) :
    ∃ c ∈ (passwordSeeds t pos u true d sy).1, c ∈ ascii_lowercase := by
  unfold passwordSeeds
  obtain ⟨c, hc, hcls⟩ := seedStep_has t ascii_lowercase
    (seedStep t u ascii_uppercase ([], pos)) ascii_lowercase_ne
  exact ⟨c, seedStep_mem_of_mem _ _ _ _ (seedStep_mem_of_mem _ _ _ _ hc), hcls⟩

theorem passwordSeeds_cover_digits (t : Tape) (pos : Nat) (u lo sy : Bool) :
    ∃ c ∈ (passwordSeeds t pos u lo true sy).1, c ∈ asciiDigits := by
  unfold passwordSeeds
  obtain ⟨c, hc, hcls⟩ := seedStep_has t asciiDigits
    (seedStep t lo ascii_lowercase (seedStep t u ascii_uppercase ([], pos)))
    asciiDigits_ne
  exact ⟨c, seedStep_mem_of_mem _ _ _ _ hc, hcls⟩

theorem passwordSeeds_cover_symbols (t : Tape) (pos : Nat) (u lo d : Bool) :
    ∃ c ∈ (passwordSeeds t pos u lo d true).1, c ∈ passwordSymbols := by
  unfold passwordSeeds
  exact seedStep_has t passwordSymbols
    (seedStep t d asciiDigits
      (seedStep t lo ascii_lowercase (seedStep t u ascii_uppercase ([], pos))))
    passwordSymbols_ne

/-- The shape `generate_password` takes on a valid spec: seed, fill, shuffle. -/
theorem generate_password_valid_eq (t : Tape) (length : ℤ) (u lo d sy : Bool)
    (hlen : 8 ≤ length) (hcls : (u || lo || d || sy) = true) :
    generate_password t length u lo d sy
      = .ok (String.mk (fyShuffle t
          ((passwordSeeds t 0 u lo d sy).2
            + (length - ((passwordSeeds t 0 u lo d sy).1.length : ℤ)).toNat)
          ((passwordSeeds t 0 u lo d sy).1 ++
            passwordFill t (passwordPool u lo d sy)
              (passwordSeeds t 0 u lo d sy).2
              (length - ((passwordSeeds t 0 u lo d sy).1.length : ℤ)).toNat))) := by
  have h1 : ¬ (length < 8) := by omega
  have h2 : (passwordPool u lo d sy).isEmpty = false := by
    rw [passwordPool_isEmpty, hcls]
    rfl
  simp only [generate_password, h1, if_false, h2, Bool.false_eq_true]

/-! ## Claim theorems: password generation -/

/-- C2: for every valid `PasswordSpec` (length ≥ 8 and at least one class
selected) and every sequence of random draws, `generate_password` returns a
string of length exactly `length` that contains at least one character from
every selected class and zero characters from any non-selected class. -/
theorem C2_password_length_and_class_coverage (t : Tape) (length : ℤ)
    (u lo d sy : Bool) (hlen : 8 ≤ length)
    (hcls : (u || lo || d || sy) = true) :
    ∃ pw : String, generate_password t length u lo d sy = .ok pw ∧
      (pw.length : ℤ) = length ∧
      (u = true → ∃ c ∈ pw.toList, c ∈ ascii_uppercase) ∧
      (lo = true → ∃ c ∈ pw.toList, c ∈ ascii_lowercase) ∧
      (d = true → ∃ c ∈ pw.toList, c ∈ asciiDigits) ∧
      (sy = true → ∃ c ∈ pw.toList, c ∈ passwordSymbols) ∧
      (u = false → ∀ c ∈ pw.toList, c ∉ ascii_uppercase) ∧
      (lo = false → ∀ c ∈ pw.toList, c ∉ ascii_lowercase) ∧
      (d = false → ∀ c ∈ pw.toList, c ∉ asciiDigits) ∧
      (sy = false → ∀ c ∈ pw.toList, c ∉ passwordSymbols) := by
  obtain ⟨dlu, ddu, dsu, dul, ddl, dsl, dud, dld, dsd, dus, dls, dds⟩ :=
    classes_disjoint
  have hpoolne := passwordPool_ne u lo d sy hcls
  refine ⟨_, generate_password_valid_eq t length u lo d sy hlen hcls,
    ?_, ?_, ?_, ?_, ?_, ?_, ?_, ?_, ?_⟩
  all_goals
    set seeds := passwordSeeds t 0 u lo d sy with hseeds
    set rem := (length - (seeds.1.length : ℤ)).toNat with hrem
    set filled := seeds.1 ++ passwordFill t (passwordPool u lo d sy) seeds.2 rem
      with hfilled
    have htl : (String.mk (fyShuffle t (seeds.2 + rem) filled)).toList
        = fyShuffle t (seeds.2 + rem) filled := rfl
    have hperm : List.Perm ((String.mk (fyShuffle t (seeds.2 + rem) filled)).toList)
        filled := htl ▸ fyShuffle_perm t (seeds.2 + rem) filled
  -- length
  · have hk : seeds.1.length ≤ 4 := by
      rw [hseeds, passwordSeeds_length]
      split_ifs <;> omega
    have hlen1 : (String.mk (fyShuffle t (seeds.2 + rem) filled)).length
        = filled.length := hperm.length_eq
    rw [hlen1, hfilled, List.length_append, passwordFill_length]
    have hnn : (0 : ℤ) ≤ length - (seeds.1.length : ℤ) := by omega
    have : ((length - (seeds.1.length : ℤ)).toNat : ℤ)
        = length - (seeds.1.length : ℤ) := Int.toNat_of_nonneg hnn
    push_cast
    omega
  -- coverage, one conjunct per selected class
  · intro hu
    subst hu
    obtain ⟨c, hc, hcl⟩ := passwordSeeds_cover_upper t 0 lo d sy
    exact ⟨c, hperm.mem_iff.mpr (List.mem_append_left _ hc), hcl⟩
  · intro hlo
    subst hlo
    obtain ⟨c, hc, hcl⟩ := passwordSeeds_cover_lower t 0 u d sy
    exact ⟨c, hperm.mem_iff.mpr (List.mem_append_left _ hc), hcl⟩
  · intro hd
    subst hd
    obtain ⟨c, hc, hcl⟩ := passwordSeeds_cover_digits t 0 u lo sy
    exact ⟨c, hperm.mem_iff.mpr (List.mem_append_left _ hc), hcl⟩
  · intro hsy
    subst hsy
    obtain ⟨c, hc, hcl⟩ := passwordSeeds_cover_symbols t 0 u lo d
    exact ⟨c, hperm.mem_iff.mpr (List.mem_append_left _ hc), hcl⟩
  -- exclusion, one conjunct per non-selected class
  · intro hu c hc
    rcases List.mem_append.mp (hperm.mem_iff.mp hc) with h | h
    · refine passwordSeeds_all t 0 u lo d sy (P := fun x => x ∉ ascii_uppercase) ?_ ?_ ?_ ?_ c h
      · intro h1; rw [h1] at hu; cases hu
      · intro _; exact dlu
      · intro _; exact ddu
      · intro _; exact dsu
    · have hp := passwordPool_sub u lo d sy c
        (passwordFill_mem t _ hpoolne seeds.2 rem c h)
      rcases hp with ⟨h1, _⟩ | ⟨_, h2⟩ | ⟨_, h2⟩ | ⟨_, h2⟩
      · rw [h1] at hu; cases hu
      · exact dlu c h2
      · exact ddu c h2
      · exact dsu c h2
  · intro hlo c hc
    rcases List.mem_append.mp (hperm.mem_iff.mp hc) with h | h
    · refine passwordSeeds_all t 0 u lo d sy (P := fun x => x ∉ ascii_lowercase) ?_ ?_ ?_ ?_ c h
      · intro _; exact dul
      · intro h1; rw [h1] at hlo; cases hlo
      · intro _; exact ddl
      · intro _; exact dsl
    · have hp := passwordPool_sub u lo d sy c
        (passwordFill_mem t _ hpoolne seeds.2 rem c h)
      rcases hp with ⟨_, h2⟩ | ⟨h1, _⟩ | ⟨_, h2⟩ | ⟨_, h2⟩
      · exact dul c h2
      · rw [h1] at hlo; cases hlo
      · exact ddl c h2
      · exact dsl c h2
  · intro hd c hc
    rcases List.mem_append.mp (hperm.mem_iff.mp hc) with h | h
    · refine passwordSeeds_all t 0 u lo d sy (P := fun x => x ∉ asciiDigits) ?_ ?_ ?_ ?_ c h
      · intro _; exact dud
      · intro _; exact dld
      · intro h1; rw [h1] at hd; cases hd
      · intro _; exact dsd
    · have hp := passwordPool_sub u lo d sy c
        (passwordFill_mem t _ hpoolne seeds.2 rem c h)
      rcases hp with ⟨_, h2⟩ | ⟨_, h2⟩ | ⟨h1, _⟩ | ⟨_, h2⟩
      · exact dud c h2
      · exact dld c h2
      · rw [h1] at hd; cases hd
      · exact dsd c h2
  · intro hsy c hc
    rcases List.mem_append.mp (hperm.mem_iff.mp hc) with h | h
    · refine passwordSeeds_all t 0 u lo d sy (P := fun x => x ∉ passwordSymbols) ?_ ?_ ?_ ?_ c h
      · intro _; exact dus
      · intro _; exact dls
      · intro _; exact dds
      · intro h1; rw [h1] at hsy; cases hsy
    · have hp := passwordPool_sub u lo d sy c
        (passwordFill_mem t _ hpoolne seeds.2 rem c h)
      rcases hp with ⟨_, h2⟩ | ⟨_, h2⟩ | ⟨_, h2⟩ | ⟨h1, _⟩
      · exact dus c h2
      · exact dls c h2
      · exact dds c h2
      · rw [h1] at hsy; cases hsy

/-- Witness for C2 at the concrete valid spec `length = 8`, all four classes
selected, on the constant-zero tape. -/
theorem C2_password_length_and_class_coverage_witness :
    ∃ pw : String, generate_password zeroTape 8 true true true true = .ok pw ∧
      (pw.length : ℤ) = 8 ∧
      (true = true → ∃ c ∈ pw.toList, c ∈ ascii_uppercase) ∧
      (true = true → ∃ c ∈ pw.toList, c ∈ ascii_lowercase) ∧
      (true = true → ∃ c ∈ pw.toList, c ∈ asciiDigits) ∧
      (true = true → ∃ c ∈ pw.toList, c ∈ passwordSymbols) ∧
      (true = false → ∀ c ∈ pw.toList, c ∉ ascii_uppercase) ∧
      (true = false → ∀ c ∈ pw.toList, c ∉ ascii_lowercase) ∧
      (true = false → ∀ c ∈ pw.toList, c ∉ asciiDigits) ∧
      (true = false → ∀ c ∈ pw.toList, c ∉ passwordSymbols) :=
  C2_password_length_and_class_coverage zeroTape 8 true true true true
    (by decide) rfl

/-- C4: the password shuffle step is a Fisher–Yates pass over the full
seeded-plus-filled buffer: the iteration proceeds from the last index down
to 1, each step swaps position `i` with `j = secrets.randbelow(i + 1)` which
always satisfies `j ≤ i`, the output of `generate_password` on a valid spec is
exactly this pass applied to the seeded-plus-filled buffer, and the pass
permutes its buffer. -/
theorem C4_shuffle_is_fisher_yates (t : Tape) (length : ℤ) (u lo d sy : Bool)
    (hlen : 8 ≤ length) (hcls : (u || lo || d || sy) = true) :
    (∀ (pos : Nat) (l : List Char) (i : Nat),
        fyGo t pos l (i + 1)
          = fyGo t (pos + 1)
              (swapList l (i + 1) (secretsRandbelow t pos (i + 2))) i
        ∧ secretsRandbelow t pos (i + 2) ≤ i + 1) ∧
    (∀ (pos : Nat) (l : List Char),
        fyShuffle t pos l = fyGo t pos l (l.length - 1)) ∧
    (∀ (pos : Nat) (l : List Char), List.Perm (fyShuffle t pos l) l) ∧
    generate_password t length u lo d sy
      = .ok (String.mk (fyShuffle t
          ((passwordSeeds t 0 u lo d sy).2
            + (length - ((passwordSeeds t 0 u lo d sy).1.length : ℤ)).toNat)
          ((passwordSeeds t 0 u lo d sy).1 ++
            passwordFill t (passwordPool u lo d sy)
              (passwordSeeds t 0 u lo d sy).2
              (length - ((passwordSeeds t 0 u lo d sy).1.length : ℤ)).toNat))) := by
  refine ⟨?_, ?_, ?_, generate_password_valid_eq t length u lo d sy hlen hcls⟩
  · intro pos l i
    refine ⟨rfl, ?_⟩
    have := secretsRandbelow_lt t pos (i + 2) (by omega)
    omega
  · intro pos l
    rfl
  · intro pos l
    exact fyShuffle_perm t pos l

/-- Witness for C4 at the concrete valid spec `length = 8`, all classes
selected, on the constant-zero tape; the permutation conjunct is also read
off at a concrete buffer. -/
theorem C4_shuffle_is_fisher_yates_witness :
    (∀ (pos : Nat) (l : List Char) (i : Nat),
        fyGo zeroTape pos l (i + 1)
          = fyGo zeroTape (pos + 1)
              (swapList l (i + 1) (secretsRandbelow zeroTape pos (i + 2))) i
        ∧ secretsRandbelow zeroTape pos (i + 2) ≤ i + 1) ∧
    (∀ (pos : Nat) (l : List Char),
        fyShuffle zeroTape pos l = fyGo zeroTape pos l (l.length - 1)) ∧
    (∀ (pos : Nat) (l : List Char),
        List.Perm (fyShuffle zeroTape pos l) l) ∧
    generate_password zeroTape 8 true true true true
      = .ok (String.mk (fyShuffle zeroTape
          ((passwordSeeds zeroTape 0 true true true true).2
            + ((8 : ℤ)
                - ((passwordSeeds zeroTape 0 true true true true).1.length : ℤ)).toNat)
          ((passwordSeeds zeroTape 0 true true true true).1 ++
            passwordFill zeroTape (passwordPool true true true true)
              (passwordSeeds zeroTape 0 true true true true).2
              ((8 : ℤ)
                - ((passwordSeeds zeroTape 0 true true true true).1.length : ℤ)).toNat))) :=
  C4_shuffle_is_fisher_yates zeroTape 8 true true true true (by decide) rfl

/-- C5: `generate_password` fails if and only if the requested length is below
8 or no character class is selected; each failure carries the matching
`ValueError` message of the source, and every valid input produces a
password. -/
theorem C5_password_validation (t : Tape) (length : ℤ) (u lo d sy : Bool) :
    (isOkE (generate_password t length u lo d sy)
        = (decide (8 ≤ length) && (u || lo || d || sy))) ∧
    (length < 8 →
      generate_password t length u lo d sy
        = .error "Password length must be at least 8 characters") ∧
    (8 ≤ length → (u || lo || d || sy) = false →
      generate_password t length u lo d sy
        = .error "At least one character type must be selected") := by
  refine ⟨?_, ?_, ?_⟩
  · by_cases h1 : length < 8
    · have h8 : ¬ (8 ≤ length) := by omega
      simp [generate_password, h1, isOkE, h8]
    · by_cases h2 : (u || lo || d || sy) = true
      · rw [generate_password_valid_eq t length u lo d sy (by omega) h2]
        have h8 : 8 ≤ length := by omega
        simp [isOkE, h8, h2]
      · have hff : (u || lo || d || sy) = false := by
          cases h : (u || lo || d || sy)
          · rfl
          · exact absurd h h2
        have hpe : (passwordPool u lo d sy).isEmpty = true := by
          rw [passwordPool_isEmpty, hff]
          rfl
        simp [generate_password, h1, hpe, isOkE, hff]
  · intro h
    simp [generate_password, h]
  · intro h8 hff
    have h1 : ¬ (length < 8) := by omega
    have hpe : (passwordPool u lo d sy).isEmpty = true := by
      rw [passwordPool_isEmpty, hff]
      rfl
    simp [generate_password, h1, hpe]

/-- Witness for C5: a length-5 request fails with the length message, and a
length-9 request with no class selected fails with the class message. -/
theorem C5_password_validation_witness :
    (generate_password zeroTape 5 true true true true
      = .error "Password length must be at least 8 characters") ∧
    (generate_password zeroTape 9 false false false false
      = .error "At least one character type must be selected") :=
  ⟨(C5_password_validation zeroTape 5 true true true true).2.1 (by decide),
   (C5_password_validation zeroTape 9 false false false false).2.2
     (by decide) rfl⟩

/-! ## Claim theorems: the batch runner -/

/-- C3: the batch loop invokes the generator exactly `count` times in call
order; slot `i` of the result is entirely determined by the outcome of the
`i`-th invocation (so one iteration's failure cannot abort, skip, or perturb
any other slot), a failing iteration is recorded as an error line at its
1-based index, and a succeeding one as a value line. -/
theorem C3_batch_isolation_and_order (gen : Nat → Except String String)
    (count : Nat) (_hc : 1 ≤ count) :
    (batchResults gen count).length = count ∧
    (∀ i, i < count →
        (batchResults gen count).getD i "" = batchLine i (gen i)) ∧
    (∀ i, i < count → ∀ e, gen i = .error e →
        (batchResults gen count).getD i "" = s!"{i + 1}. Error: {e}") ∧
    (∀ i, i < count → ∀ v, gen i = .ok v →
        (batchResults gen count).getD i "" = s!"{i + 1}. {v}") := by
  have hslot : ∀ i, i < count →
      (batchResults gen count).getD i "" = batchLine i (gen i) := by
    intro i hi
    have hilen : i < (batchResults gen count).length := by
      simpa [batchResults] using hi
    rw [List.getD_eq_getElem _ _ hilen]
    simp [batchResults]
  refine ⟨by simp [batchResults], hslot, ?_, ?_⟩
  · intro i hi e he
    rw [hslot i hi, he]
    rfl
  · intro i hi v hv
    rw [hslot i hi, hv]
    rfl

/-- Witness for C3: a batch of 5 whose 3rd invocation fails yields 5 ordered
lines with the error recorded at 1-based index 3 and every other slot a
success. -/
theorem C3_batch_isolation_and_order_witness :
    (batchResults (fun i => if i = 2 then .error "boom" else .ok "val") 5).length
        = 5 ∧
    (batchResults (fun i => if i = 2 then .error "boom" else .ok "val") 5).getD
        2 "" = "3. Error: boom" ∧
    batchResults (fun i => if i = 2 then .error "boom" else .ok "val") 5
      = ["1. val", "2. val", "3. Error: boom", "4. val", "5. val"] := by
  refine ⟨(C3_batch_isolation_and_order
      (fun i => if i = 2 then .error "boom" else .ok "val") 5 (by decide)).1,
    ?_, by decide⟩
  exact ((C3_batch_isolation_and_order
      (fun i => if i = 2 then .error "boom" else .ok "val") 5 (by decide)).2.2.1
      2 (by decide) "boom" rfl).trans (by decide)

/-! ## Claim theorems: tokens -/

theorem hexDigit_mem (n : Nat) : hexDigit n ∈ "0123456789abcdef".toList := by
  have hlt : n % 16 < ("0123456789abcdef".toList).length :=
    Nat.mod_lt _ (by decide)
  unfold hexDigit
  rw [List.getD_eq_getElem _ _ hlt]
  exact List.getElem_mem hlt

theorem tokenHexChars_length (t : Tape) :
    ∀ (pos n : Nat), (tokenHexChars t pos n).length = 2 * n
  | _, 0 => rfl
  | pos, n + 1 => by
      simp [tokenHexChars, byteToHex, tokenHexChars_length t (pos + 1) n]
      omega

theorem tokenHexChars_mem (t : Tape) :
    ∀ (pos n : Nat), ∀ c ∈ tokenHexChars t pos n, c ∈ "0123456789abcdef".toList
  | _, 0 => by simp [tokenHexChars]
  | pos, n + 1 => by
      intro c hc
      rcases List.mem_append.mp (by simpa [tokenHexChars] using hc) with h | h
      · rcases (by simpa [byteToHex] using h :
            c = hexDigit (t pos % 256 / 16) ∨ c = hexDigit (t pos % 256 % 16))
          with h1 | h1
        · exact h1 ▸ hexDigit_mem _
        · exact h1 ▸ hexDigit_mem _
      · exact tokenHexChars_mem t (pos + 1) n c h

/-- C6: for every requested byte count `n ≥ 1` and every sequence of random
bytes, `generate_token` returns a string of exactly `2 * n` characters, all of
which are lowercase hexadecimal digits. -/
theorem C6_token_length_and_hex (t : Tape) (n : Nat) (_h : 1 ≤ n) :
    (generate_token t n).length = 2 * n ∧
    ∀ c ∈ (generate_token t n).toList, c ∈ "0123456789abcdef".toList := by
  refine ⟨?_, ?_⟩
  · have : (generate_token t n).length = (tokenHexChars t 0 n).length := rfl
    rw [this, tokenHexChars_length]
  · intro c hc
    exact tokenHexChars_mem t 0 n c (by simpa [generate_token] using hc)

/-- Witness for C6 at `n = 1` on the constant-zero tape. -/
theorem C6_token_length_and_hex_witness :
    (generate_token zeroTape 1).length = 2 * 1 ∧
    ∀ c ∈ (generate_token zeroTape 1).toList, c ∈ "0123456789abcdef".toList :=
  C6_token_length_and_hex zeroTape 1 (by decide)

/-- C10: `generate_token` performs no validation of its length argument — at
byte count 0 it returns the empty string instead of failing, and it returns a
(2·n)-character string for every `n` — while every other length-taking
generator rejects inputs below its documented minimum. -/
theorem C10_token_no_validation :
    (∀ t : Tape, generate_token t 0 = "") ∧
    (∀ (t : Tape) (n : Nat), (generate_token t n).length = 2 * n) ∧
    (∀ t : Tape,
        generate_pin t 3 = .error "PIN length must be at least 4 digits") ∧
    (∀ t : Tape,
        generate_api_key t 15
          = .error "API key length must be at least 16 characters") ∧
    (∀ (t : Tape) (u lo d sy : Bool),
        generate_password t 7 u lo d sy
          = .error "Password length must be at least 8 characters") := by
  refine ⟨fun t => rfl, fun t n => ?_, fun t => rfl, fun t => rfl,
    fun t u lo d sy => rfl⟩
  have : (generate_token t n).length = (tokenHexChars t 0 n).length := rfl
  rw [this, tokenHexChars_length]

/-! ## Claim theorems: the expression guard (C1) -/

/-! ## Claim theorems: hashing -/

theorem byteToHex_mem (b : Nat) :
    ∀ c ∈ byteToHex b, c ∈ "0123456789abcdef".toList := by
  intro c hc
  rcases (by simpa [byteToHex] using hc :
      c = hexDigit (b / 16) ∨ c = hexDigit (b % 16)) with h | h
  · exact h ▸ hexDigit_mem _
  · exact h ▸ hexDigit_mem _

theorem wordToHex_mem (w d : Nat) :
    ∀ c ∈ wordToHex w d, c ∈ "0123456789abcdef".toList := by
  intro c hc
  simp only [wordToHex, List.mem_map, List.mem_range] at hc
  obtain ⟨i, _, rfl⟩ := hc
  exact hexDigit_mem _

theorem wordToHex_length (w d : Nat) : (wordToHex w d).length = d := by
  simp [wordToHex]

theorem hexOfWords_length (ws : List Nat) (d : Nat) :
    ((ws.map fun w => wordToHex w d).flatten).length = ws.length * d := by
  induction ws with
  | nil => simp
  | cons w ws ih =>
      simp [ih, wordToHex_length]
      ring

theorem hexOfWords_mem (ws : List Nat) (d : Nat) :
    ∀ c ∈ (ws.map fun w => wordToHex w d).flatten,
      c ∈ "0123456789abcdef".toList := by
  intro c hc
  simp only [List.mem_flatten, List.mem_map] at hc
  obtain ⟨l, ⟨w, _, rfl⟩, hcl⟩ := hc
  exact wordToHex_mem w d c hcl

theorem stringMk_length (l : List Char) : (String.mk l).length = l.length := rfl

theorem sha256Hex_spec (msg : List Nat) :
    (sha256Hex msg).length = 64 ∧
    ∀ c ∈ (sha256Hex msg).toList, c ∈ "0123456789abcdef".toList := by
  unfold sha256Hex
  refine ⟨?_, fun c hc => hexOfWords_mem _ _ c hc⟩
  rw [stringMk_length, hexOfWords_length]
  simp

theorem sha512Hex_spec (msg : List Nat) :
    (sha512Hex msg).length = 128 ∧
    ∀ c ∈ (sha512Hex msg).toList, c ∈ "0123456789abcdef".toList := by
  unfold sha512Hex
  refine ⟨?_, fun c hc => hexOfWords_mem _ _ c hc⟩
  rw [stringMk_length, hexOfWords_length]
  simp

theorem sha1Hex_spec (msg : List Nat) :
    (sha1Hex msg).length = 40 ∧
    ∀ c ∈ (sha1Hex msg).toList, c ∈ "0123456789abcdef".toList := by
  unfold sha1Hex
  refine ⟨?_, fun c hc => hexOfWords_mem _ _ c hc⟩
  rw [stringMk_length, hexOfWords_length]
  simp

theorem hexOfBytes_mem (bs : List Nat) :
    ∀ c ∈ (bs.map fun b => byteToHex b).flatten, c ∈ "0123456789abcdef".toList := by
  intro c hc
  simp only [List.mem_flatten, List.mem_map] at hc
  obtain ⟨l, ⟨b, _, rfl⟩, hcl⟩ := hc
  exact byteToHex_mem b c hcl

theorem hexOfBytes_length (bs : List Nat) :
    ((bs.map fun b => byteToHex b).flatten).length = 2 * bs.length := by
  induction bs with
  | nil => rfl
  | cons b bs ih =>
      simp [byteToHex] at ih ⊢
      omega

theorem md5Hex_spec (msg : List Nat) :
    (md5Hex msg).length = 32 ∧
    ∀ c ∈ (md5Hex msg).toList, c ∈ "0123456789abcdef".toList := by
  refine ⟨?_, fun c hc => hexOfBytes_mem _ c hc⟩
  unfold md5Hex
  rw [stringMk_length, hexOfBytes_length]
  simp [toBytesLE]

/-- C7: `hash_string` is a pure function of `(text, algorithm)`: it fails with
the `UnsupportedAlgorithm` `ValueError` for every algorithm outside
`{md5, sha1, sha256, sha512}`; every produced digest is lowercase hex of the
algorithm's fixed width over the UTF-8 encoding of `text`; and
`hash_string("Hello, World!", "sha256")` is the known SHA-256 digest. -/
theorem C7_hash_dispatch_and_digest :
    (∀ text alg : String,
        alg ∉ (["md5", "sha1", "sha256", "sha512"] : List String) →
        hash_string text alg
          = .error "Unsupported algorithm. Choose from: md5, sha1, sha256, sha512") ∧
    (∀ text : String,
        hash_string text "sha256" = .ok (sha256Hex (utf8Bytes text))) ∧
    (∀ text alg dg : String, hash_string text alg = .ok dg →
        (∀ c ∈ dg.toList, c ∈ "0123456789abcdef".toList) ∧
        dg.length = (if alg = "md5" then 32 else if alg = "sha1" then 40
          else if alg = "sha256" then 64 else 128)) ∧
    hash_string "Hello, World!" "sha256"
      = .ok "dffd6021bb2bd5b0af676290809ec3a53191dd81c7f70a4b28688a362182986f" := by
  refine ⟨?_, ?_, ?_, by rfl⟩
  · intro text alg h
    simp only [List.mem_cons, List.not_mem_nil, or_false, not_or] at h
    obtain ⟨h1, h2, h3, h4⟩ := h
    simp [hash_string, h1, h2, h3, h4]
  · intro text
    rfl
  · intro text alg dg h
    unfold hash_string at h
    split at h
    · next ha =>
        cases h
        subst ha
        exact ⟨(md5Hex_spec _).2, by simpa using (md5Hex_spec (utf8Bytes text)).1⟩
    · split at h
      · next ha =>
          cases h
          subst ha
          refine ⟨(sha1Hex_spec _).2, ?_⟩
          simpa +decide using (sha1Hex_spec (utf8Bytes text)).1
      · split at h
        · next ha =>
            cases h
            subst ha
            refine ⟨(sha256Hex_spec _).2, ?_⟩
            simpa +decide using (sha256Hex_spec (utf8Bytes text)).1
        · split at h
          · next ha =>
              cases h
              subst ha
              refine ⟨(sha512Hex_spec _).2, ?_⟩
              simpa +decide using (sha512Hex_spec (utf8Bytes text)).1
          · cases h

/-- Witness for C7: the rejection at the concrete algorithm `"sha384"`, and
the digest-shape conjunct read off at the known `"Hello, World!"` digest. -/
theorem C7_hash_dispatch_and_digest_witness :
    hash_string "x" "sha384"
      = .error "Unsupported algorithm. Choose from: md5, sha1, sha256, sha512" ∧
    ((∀ c ∈ ("dffd6021bb2bd5b0af676290809ec3a53191dd81c7f70a4b28688a362182986f" : String).toList,
        c ∈ "0123456789abcdef".toList) ∧
      ("dffd6021bb2bd5b0af676290809ec3a53191dd81c7f70a4b28688a362182986f" : String).length
        = (if ("sha256" : String) = "md5" then 32 else if ("sha256" : String) = "sha1" then 40
          else if ("sha256" : String) = "sha256" then 64 else 128)) :=
  ⟨C7_hash_dispatch_and_digest.1 "x" "sha384" (by decide),
   C7_hash_dispatch_and_digest.2.2.1 "Hello, World!" "sha256" _
     C7_hash_dispatch_and_digest.2.2.2⟩

/-! ## Claim theorems: the expression evaluator -/

theorem ebind_ok (a : α) (f : α → Except ε β) :
    (do let x ← Except.ok a; f x) = f a := rfl

theorem epure_eq (a : α) : (pure a : Except ε α) = Except.ok a := rfl

/-- C8: evaluating the square root of a negative number, the logarithm (or
`log10`) of a non-positive number, or a division by zero fails with the
matching domain/zero-division error; such an evaluation error is rendered by
`calculate` into the ❌ `Calculation error` string; and in particular
`calculate("sqrt(-1)")` fails with exactly the `math domain error` message. -/
theorem C8_domain_errors :
    (∀ (e : PExpr) (x : ℚ), evalP e = .ok (.num x) → x < 0 →
        evalP (.call "sqrt" (.cons e .nil)) = .error (.domain "sqrt")) ∧
    (∀ (e : PExpr) (x : ℚ), evalP e = .ok (.num x) → x ≤ 0 →
        evalP (.call "log" (.cons e .nil)) = .error (.domain "log")) ∧
    (∀ (e : PExpr) (x : ℚ), evalP e = .ok (.num x) → x ≤ 0 →
        evalP (.call "log10" (.cons e .nil)) = .error (.domain "log10")) ∧
    (∀ (a b : PExpr) (x : ℚ), evalP a = .ok (.num x) → evalP b = .ok (.num 0) →
        evalP (.div a b) = .error .zeroDiv) ∧
    (∀ (s : String) (ast : PExpr) (err : PyErr), forbiddenHit s = false →
        parseExpression s = .ok ast → evalP ast = .error err →
        calculate s = .err ("❌ Calculation error: " ++ renderPyErr err)) ∧
    calculate "sqrt(-1)" = .err "❌ Calculation error: math domain error" := by
  refine ⟨?_, ?_, ?_, ?_, ?_, by rfl⟩
  · intro e x he hx
    have h1 : evalArgs (.cons e .nil) = .ok [PyVal.num x] := by
      simp only [evalArgs, he, ebind_ok, epure_eq]
    simp +decide [evalP, h1, ebind_ok, epure_eq, applyFn, asNums, asNum, applyNum, hx]
  · intro e x he hx
    have h1 : evalArgs (.cons e .nil) = .ok [PyVal.num x] := by
      simp only [evalArgs, he, ebind_ok, epure_eq]
    simp +decide [evalP, h1, ebind_ok, epure_eq, applyFn, asNums, asNum, applyNum, hx]
  · intro e x he hx
    have h1 : evalArgs (.cons e .nil) = .ok [PyVal.num x] := by
      simp only [evalArgs, he, ebind_ok, epure_eq]
    simp +decide [evalP, h1, ebind_ok, epure_eq, applyFn, asNums, asNum, applyNum, hx]
  · intro a b x ha hb
    simp [evalP, ha, hb, ebind_ok, epure_eq, asNum]
  · intro s ast err hf hp he
    simp [calculate, hf, hp, he]

/-- Witness for C8 at concrete expressions: `sqrt(-1)`, `log(0)`, `log10(0)`,
`1/0`, and the full `calculate("sqrt(-1)")` pipeline. -/
theorem C8_domain_errors_witness :
    evalP (.call "sqrt" (.cons (.neg (.num 1)) .nil))
      = .error (.domain "sqrt") ∧
    evalP (.call "log" (.cons (.num 0) .nil)) = .error (.domain "log") ∧
    evalP (.call "log10" (.cons (.num 0) .nil)) = .error (.domain "log10") ∧
    evalP (.div (.num 1) (.num 0)) = .error .zeroDiv ∧
    calculate "sqrt(-1)" = .err "❌ Calculation error: math domain error" :=
  ⟨C8_domain_errors.1 (.neg (.num 1)) (-1) rfl (by decide),
   C8_domain_errors.2.1 (.num 0) 0 rfl (by decide),
   C8_domain_errors.2.2.1 (.num 0) 0 rfl (by decide),
   C8_domain_errors.2.2.2.1 (.num 1) (.num 0) 1 rfl rfl,
   C8_domain_errors.2.2.2.2.2⟩

/-- C9 (amended): `calculate` never raises — every internal exception is
caught — and on the modelled fragment its behaviour splits exactly as the
source does: a hit of the forbidden-substring guard or a caught evaluation
exception is rendered into a ❌-prefixed error string which the caller
passes through; a numeric success is rounded and formatted by the caller as
`🧮 expression = result`; and a string-valued success is returned as a bare
string, which the caller's `isinstance(result, str)` test sends down the
same pass-through branch as the errors — so the returned type does not
determine success or failure. -/
theorem C9_calculate_total_and_typed :
    (∀ s : String,
        (∃ v, calculate s = .value v) ∨ (∃ m, calculate s = .err m)) ∧
    (∀ s : String, forbiddenHit s = true →
        calculate s = .err "❌ Expression contains forbidden operations" ∧
        serverCalculate s = "❌ Expression contains forbidden operations") ∧
    (∀ (s : String) (ast : PExpr) (err : PyErr), forbiddenHit s = false →
        parseExpression s = .ok ast → evalP ast = .error err →
        calculate s = .err ("❌ Calculation error: " ++ renderPyErr err) ∧
        serverCalculate s = "❌ Calculation error: " ++ renderPyErr err) ∧
    (∀ (s : String) (ast : PExpr) (q : ℚ), forbiddenHit s = false →
        parseExpression s = .ok ast → evalP ast = .ok (.num q) →
        calculate s = .value (.num (pyRound10 q)) ∧
        serverCalculate s = "🧮 " ++ s ++ " = " ++ renderVal (.num (pyRound10 q))) ∧
    (∀ (s t : String) (ast : PExpr), forbiddenHit s = false →
        parseExpression s = .ok ast → evalP ast = .ok (.str t) →
        calculate s = .value (.str t) ∧ serverCalculate s = t) := by
  refine ⟨?_, ?_, ?_, ?_, ?_⟩
  · intro s
    cases h : calculate s with
    | value v => exact .inl ⟨v, rfl⟩
    | err m => exact .inr ⟨m, rfl⟩
  · intro s hf
    have hc : calculate s = .err "❌ Expression contains forbidden operations" := by
      simp [calculate, hf]
    exact ⟨hc, by simp [serverCalculate, hc]⟩
  · intro s ast err hf hp he
    have hc : calculate s
        = .err ("❌ Calculation error: " ++ renderPyErr err) := by
      simp [calculate, hf, hp, he]
    exact ⟨hc, by simp [serverCalculate, hc]⟩
  · intro s ast q hf hp he
    have hc : calculate s = .value (.num (pyRound10 q)) := by
      simp [calculate, hf, hp, he, pyRoundVal]
    exact ⟨hc, by simp [serverCalculate, hc]⟩
  · intro s t ast hf hp he
    have hc : calculate s = .value (.str t) := by
      simp [calculate, hf, hp, he, pyRoundVal]
    exact ⟨hc, by simp [serverCalculate, hc]⟩

/-- Witness for C9 at concrete inputs: a guard hit (`open(1)`), a rendered
evaluation error (`1/0`), a formatted numeric success (`2`), and a
string-valued success (`"hello"`) returned bare through the caller's string
branch. -/
theorem C9_calculate_total_and_typed_witness :
    ((∃ v, calculate "1/0" = .value v) ∨ (∃ m, calculate "1/0" = .err m)) ∧
    (calculate "open(1)" = .err "❌ Expression contains forbidden operations" ∧
      serverCalculate "open(1)" = "❌ Expression contains forbidden operations") ∧
    (calculate "1/0" = .err ("❌ Calculation error: " ++ renderPyErr .zeroDiv) ∧
      serverCalculate "1/0" = "❌ Calculation error: " ++ renderPyErr .zeroDiv) ∧
    (calculate "2" = .value (.num (pyRound10 2)) ∧
      serverCalculate "2" = "🧮 " ++ "2" ++ " = " ++ renderVal (.num (pyRound10 2))) ∧
    (calculate "\"hello\"" = .value (.str "hello") ∧
      serverCalculate "\"hello\"" = "hello") :=
  ⟨C9_calculate_total_and_typed.1 "1/0",
   C9_calculate_total_and_typed.2.1 "open(1)" rfl,
   C9_calculate_total_and_typed.2.2.1 "1/0" (.div (.num 1) (.num 0)) .zeroDiv
     rfl rfl rfl,
   C9_calculate_total_and_typed.2.2.2.1 "2" (.num 2) 2 rfl rfl rfl,
   C9_calculate_total_and_typed.2.2.2.2 "\"hello\"" "hello" (.strLit "hello")
     rfl rfl rfl⟩

/-- C9 counterexamples to the claim as stated.  `calculate("abs")` returns
the builtin function object — neither a number nor an error string.
`calculate("\"hello\"")` evaluates successfully to the plain string
`hello`, which `server.py`'s `isinstance(result, str)` dispatch passes
through on the same branch as the error strings, unformatted and without the
❌ marker — so the ❌-free success is indistinguishable by type from a
failure, refuting both "returns either a number or an error string" and "the
caller distinguishes success from failure by the type of the returned
value". -/
theorem C9_counterexample_nonnumeric_return :
    calculate "abs" = .value (.func "abs") ∧
    (∀ q : ℚ, calculate "abs" ≠ .value (.num q)) ∧
    (∀ m : String, calculate "abs" ≠ .err m) ∧
    serverCalculate "abs" = "🧮 abs = <built-in function abs>" ∧
    calculate "\"hello\"" = .value (.str "hello") ∧
    (∀ q : ℚ, calculate "\"hello\"" ≠ .value (.num q)) ∧
    (∀ m : String, calculate "\"hello\"" ≠ .err m) ∧
    serverCalculate "\"hello\"" = "hello" ∧
    ("hello" : String).toList.head? ≠ some (Char.ofNat 10060) := by
  have hab : calculate "abs" = .value (.func "abs") := by rfl
  have hhe : calculate "\"hello\"" = .value (.str "hello") := by rfl
  refine ⟨hab, ?_, ?_, by rfl, hhe, ?_, ?_, by rfl, by decide⟩
  · intro q h
    rw [hab] at h
    simp at h
  · intro m h
    rw [hab] at h
    simp at h
  · intro q h
    rw [hhe] at h
    simp at h
  · intro m h
    rw [hhe] at h
    simp at h

/-- C1 counterexample: the expression `(1).bit_length()` contains the
identifier `bit_length`, which is outside the allow-list, yet the
forbidden-substring guard of `UnitConverter.calculate` — the only check that
runs before line 185 — does not reject it, so the raw input string is handed
to `eval`, a general-purpose interpreter (which evaluates the attribute access
and returns 1).  No `DisallowedIdentifier` failure exists anywhere on this
path.  Even the allow-listed example expression reaches `eval` as a raw
string, and the spec's `__import__` example is stopped only by the substring
filter, not by an identifier check. -/
theorem C1_raw_string_reaches_eval :
    forbiddenHit "(1).bit_length()" = false ∧
    calculatePath "(1).bit_length()"
      = .handsRawStringToEval "(1).bit_length()" ∧
    calculatePath "sqrt(144) + pow(2, 3)"
      = .handsRawStringToEval "sqrt(144) + pow(2, 3)" ∧
    forbiddenHit "__import__(\"os\")" = true := by
  refine ⟨by decide, ?_, ?_, by decide⟩
  · rfl
  · rfl

end AIE8
